import Mathlib

/-!
Verification of the rouh-spaces coordination core against its specification.

The development shallowly embeds the Python source:
  * `apps/ai/main.py` — `slugify_lower`, `normalize_compiled_template`;
  * `apps/ai/template_models.py` — the pydantic validators
    (`validate_transitions`, `validate_tags`, `validate_template_consistency`);
  * `apps/a2a/agents/therapy_facilitator_simple.py` — `update_slot_data`,
    `transition_to_next_state` over an explicit model of the `RunState` table.

JSON-like Python values are modelled by `PyVal`; Python dicts are association
lists with first-match lookup; statements Python can abort with an exception
are modelled in `Except PyErr`.
-/

namespace RouhSpaces

/-- A JSON-like Python value (None, bool, int, str, list, dict).  Dict keys are
strings, as for any dict obtained from JSON. -/
inductive PyVal where
  | vnone : PyVal
  | vbool : Bool → PyVal
  | vint : Int → PyVal
  | vstr : String → PyVal
  | vlist : List PyVal → PyVal
  | vdict : List (String × PyVal) → PyVal

open PyVal

/-- A Python dict of JSON values: an association list, first match wins. -/
abbrev PyDict := List (String × PyVal)

/-- A Python exception (only the classes the embedded code can raise). -/
inductive PyErr where
  | attributeError : String → PyErr
  | typeError : String → PyErr
  | keyError : String → PyErr

/-- Python truthiness of a value (`bool(v)`). -/
def truthy : PyVal → Bool
  | vnone => false
  | vbool b => b
  | vint n => n != 0
  | vstr s => s ≠ ""
  | vlist xs => !xs.isEmpty
  | vdict m => !m.isEmpty

/-- `a or b` in Python: `a` when truthy, else `b`. -/
def pyOr (a b : PyVal) : PyVal := if truthy a then a else b

/-- `d.get(k)`: value of the first binding of `k`. -/
def dget (d : PyDict) (k : String) : Option PyVal :=
  (d.find? (fun p => p.1 = k)).map (·.2)

/-- `d.get(k, dflt)`. -/
def dgetD (d : PyDict) (k : String) (dflt : PyVal) : PyVal :=
  (dget d k).getD dflt

/-- `d[k] = v`: replace the binding in place when `k` is present, else append. -/
def dset : PyDict → String → PyVal → PyDict
  | [], k, v => [(k, v)]
  | p :: rest, k, v => if p.1 = k then (k, v) :: rest else p :: dset rest k v

/-- `d.setdefault(k, v)`: append the binding only when `k` is absent. -/
def dsetdefault (d : PyDict) (k : String) (v : PyVal) : PyDict :=
  if (dget d k).isSome then d else d ++ [(k, v)]

/-- `d.pop(k)` restricted to the removal effect: drop the first binding of `k`. -/
def dremove (d : PyDict) (k : String) : PyDict :=
  d.eraseP (fun p => p.1 = k)

/-- Lookup in a string-to-string dict (the normalizer's `role_lookup`). -/
def sget (d : List (String × String)) (k : String) : Option String :=
  (d.find? (fun p => p.1 = k)).map (·.2)

/-- `d.get(k, dflt)` on a string-to-string dict. -/
def sgetD (d : List (String × String)) (k : String) (dflt : String) : String :=
  (sget d k).getD dflt

/-- `d[k] = v` on a string-to-string dict. -/
def sset : List (String × String) → String → String → List (String × String)
  | [], k, v => [(k, v)]
  | p :: rest, k, v => if p.1 = k then (k, v) :: rest else p :: sset rest k v

/-- ASCII lowering of one character, as `str.lower()` acts on ASCII input. -/
def pyLowerChar (c : Char) : Char :=
  if 'A' ≤ c ∧ c ≤ 'Z' then Char.ofNat (c.toNat + 32) else c

/-- `s.lower()` (ASCII fragment of Python's lowering). -/
def pyLowerStr (s : String) : String := (s.toList.map pyLowerChar).asString

/-- Is `c` in the slug character class `[a-z0-9]`? -/
def isSlugChar (c : Char) : Bool :=
  ('a' ≤ c ∧ c ≤ 'z') ∨ ('0' ≤ c ∧ c ≤ '9')

/-- `re.sub(r'[^a-z0-9]+', '_', ·)` on a character list: every maximal run of
characters outside `[a-z0-9]` becomes a single underscore. -/
def collapseNonSlug : List Char → List Char
  | [] => []
  | [c] => if isSlugChar c then [c] else ['_']
  | c :: d :: rest =>
    if isSlugChar c then c :: collapseNonSlug (d :: rest)
    else if isSlugChar d then '_' :: collapseNonSlug (d :: rest)
    else collapseNonSlug (d :: rest)

/-- `s.strip('_')`: remove leading and trailing underscores. -/
def stripUnderscores (l : List Char) : List Char :=
  List.rdropWhile (fun c => c = '_') (l.dropWhile (fun c => c = '_'))

/-- `slugify_lower` from `apps/ai/main.py`:
`cleaned = re.sub(r'[^a-z0-9]+', '_', identifier.lower()).strip('_');
return cleaned or fallback`. -/
def slugify_lower (identifier : String) (fallback : String := "item") : String :=
  let cleaned := (stripUnderscores (collapseNonSlug
      (identifier.toList.map pyLowerChar))).asString
  if cleaned = "" then fallback else cleaned

/-- Is an ASCII character alphabetic (for `str.title()`)? -/
def isAsciiAlpha (c : Char) : Bool :=
  ('a' ≤ c ∧ c ≤ 'z') ∨ ('A' ≤ c ∧ c ≤ 'Z')

/-- ASCII uppering of one character. -/
def pyUpperChar (c : Char) : Char :=
  if 'a' ≤ c ∧ c ≤ 'z' then Char.ofNat (c.toNat - 32) else c

/-- `s.title()` (ASCII fragment): upper-case a letter whose predecessor is not a
letter, lower-case the rest.  Used by the normalizer only to fill default
`description` texts. -/
def pyTitle (s : String) : String :=
  (s.toList.foldl
    (fun (acc : List Char × Bool) c =>
      let out := if isAsciiAlpha c then
          (if acc.2 then pyLowerChar c else pyUpperChar c) else c
      (acc.1 ++ [out], isAsciiAlpha c))
    ([], false)).1.asString

mutual

/-- `repr(v)` (strings quoted), used for elements of containers in `pyStr`. -/
def pyRepr : PyVal → String
  | vnone => "None"
  | vbool b => if b then "True" else "False"
  | vint n => toString n
  | vstr s => "'" ++ s ++ "'"
  | vlist xs => "[" ++ pyReprList xs ++ "]"
  | vdict m => "\x7b" ++ pyReprDict m ++ "\x7d"

/-- Comma-separated `repr`s of list elements. -/
def pyReprList : List PyVal → String
  | [] => ""
  | [x] => pyRepr x
  | x :: y :: rest => pyRepr x ++ ", " ++ pyReprList (y :: rest)

/-- Comma-separated `repr`s of dict entries. -/
def pyReprDict : List (String × PyVal) → String
  | [] => ""
  | [p] => "'" ++ p.1 ++ "': " ++ pyRepr p.2
  | p :: q :: rest => "'" ++ p.1 ++ "': " ++ pyRepr p.2 ++ ", " ++ pyReprDict (q :: rest)

end

/-- `str(v)`: Python rendering of a value.  Used by the normalizer only to fill
default `description` texts of non-dict role entries. -/
def pyStr : PyVal → String
  | vnone => "None"
  | vbool b => if b then "True" else "False"
  | vint n => toString n
  | vstr s => s
  | vlist xs => "[" ++ pyReprList xs ++ "]"
  | vdict m => "\x7b" ++ pyReprDict m ++ "\x7d"

/-! ## `normalize_compiled_template` (`apps/ai/main.py`, lines 40–164)

Each paragraph of the source becomes one definition.  Statements that can raise
an `AttributeError`/`TypeError` in Python (attribute access or iteration over a
value of the wrong type) live in `Except PyErr`. -/

/-- `s.lower()` on an arbitrary value: Python raises `AttributeError` unless the
value is a string.  Models the entry into `slugify_lower(identifier, ...)`. -/
def asStr : PyVal → Except PyErr String
  | vstr s => .ok s
  | _ => .error (.attributeError "object has no attribute lower")

/-- `if 'schemaJson' not in data and 'coordinationPattern' in data:
data['schemaJson'] = data.pop('coordinationPattern')`. -/
def aliasPattern (d : PyDict) : PyDict :=
  match dget d "schemaJson", dget d "coordinationPattern" with
  | none, some v => dset (dremove d "coordinationPattern") "schemaJson" v
  | _, _ => d

/-- The five fixed phase names, in order. -/
def phases : List String := ["express", "explore", "commit", "evidence", "confirm"]

/-- One iteration of the phase loop: `phase_source = schema_source.get(phase, {})
if isinstance(schema_source, dict) else {}`, then `.get` accesses on
`phase_source` (which raise unless it is a dict). -/
def buildPhase (schemaSource : PyVal) (phase : String) : Except PyErr PyVal :=
  let phaseSource := match schemaSource with
    | vdict m => dgetD m phase (vdict [])
    | _ => vdict []
  match phaseSource with
  | vdict pm =>
    let base := [("enabled", dgetD pm "enabled" (vbool true)),
                 ("description", dgetD pm "description" vnone),
                 ("timeout", dgetD pm "timeout" vnone)]
    let base := if phase = "commit" then
        base ++ [("requireDeposit", dgetD pm "requireDeposit" (vbool false))] else base
    let base := if phase = "evidence" then
        base ++ [("requireProof", dgetD pm "requireProof" (vbool true))] else base
    let base := if phase = "confirm" then
        base ++ [("autoComplete", dgetD pm "autoComplete" (vbool false))] else base
    .ok (vdict base)
  | _ => .error (.attributeError "object has no attribute get")

/-- The `for phase in phases` loop building `normalized_schema`. -/
def buildSchema (schemaSource : PyVal) : Except PyErr PyDict := do
  let e ← buildPhase schemaSource "express"
  let x ← buildPhase schemaSource "explore"
  let c ← buildPhase schemaSource "commit"
  let v ← buildPhase schemaSource "evidence"
  let f ← buildPhase schemaSource "confirm"
  return [("express", e), ("explore", x), ("commit", c), ("evidence", v),
          ("confirm", f)]

/-- Iteration key: a dict key (`roles.items()`) or an index (`enumerate(roles)`). -/
abbrev IterKey := Sum String Nat

/-- `roles.items()` when a dict, `enumerate(roles)` when a list, `[]` otherwise. -/
def iterKV : PyVal → List (IterKey × PyVal)
  | vdict m => m.map (fun p => (Sum.inl p.1, p.2))
  | vlist xs => xs.enum.map (fun p => (Sum.inr p.1, p.2))
  | _ => []

/-- One iteration of the roles loop (`for key, value in roles_iterable`),
threading `role_lookup` and producing the normalized role dict. -/
def roleOne (lookup : List (String × String)) (kv : IterKey × PyVal) :
    Except PyErr (List (String × String) × PyDict) := do
  let rolePayload : PyDict := match kv.2 with
    | vdict m => m
    | v => [("description", vstr (pyStr v))]
  let fallbackName : String := match kv.1 with
    | Sum.inl k => k
    | Sum.inr i => "role_" ++ toString i
  let nameV := dgetD rolePayload "name" vnone
  let displayNameV := if truthy nameV then nameV else vstr fallbackName
  let displayName ← asStr displayNameV
  let slug := slugify_lower displayName "role"
  let lookup := sset lookup displayName slug
  let lookup := match kv.1 with
    | Sum.inl k => sset lookup k slug
    | Sum.inr _ => lookup
  let rp := dset rolePayload "name" (vstr slug)
  let rp := dsetdefault rp "description" (vstr (pyTitle displayName))
  let rp := dsetdefault rp "minParticipants" (vint 1)
  let rp := dsetdefault rp "capabilities" (vlist [vstr "create"])
  let rp := dsetdefault rp "constraints" (vdict [])
  return (lookup, rp)

/-- The roles loop over all entries. -/
def buildRolesList (lookup : List (String × String)) :
    List (IterKey × PyVal) → Except PyErr (List (String × String) × List PyDict)
  | [] => .ok (lookup, [])
  | kv :: rest => do
    let (lookup', rp) ← roleOne lookup kv
    let (lookupF, out) ← buildRolesList lookup' rest
    return (lookupF, rp :: out)

/-- The two-role fallback used when no roles were supplied. -/
def defaultRoles : List PyDict :=
  [[("name", vstr "requester"), ("description", vstr "Primary requester"),
    ("minParticipants", vint 1),
    ("capabilities", vlist [vstr "create", vstr "comment"])],
   [("name", vstr "provider"), ("description", vstr "Responsible fulfiller"),
    ("minParticipants", vint 1),
    ("capabilities", vlist [vstr "approve", vstr "complete"])]]

/-- Roles paragraph: loop, then `if not normalized_roles:` fallback with
`role_lookup.update({'requester': 'requester', 'provider': 'provider'})`. -/
def buildRoles (roles : PyVal) :
    Except PyErr (List (String × String) × List PyDict) := do
  let (lookup, out) ← buildRolesList [] (iterKV roles)
  if out.isEmpty then
    return (sset (sset lookup "requester" "requester") "provider" "provider",
            defaultRoles)
  else
    return (lookup, out)

/-- Iteration of `for r in X` in the role-reference comprehensions: lists yield
their elements, strings their characters, dicts their keys; other values raise
`TypeError`. -/
def pyIter : PyVal → Except PyErr (List PyVal)
  | vlist xs => .ok xs
  | vstr s => .ok (s.toList.map (fun c => vstr (String.singleton c)))
  | vdict m => .ok (m.map (fun p => vstr p.1))
  | _ => .error (.typeError "object is not iterable")

/-- `role_lookup.get(r, slugify_lower(r, 'role'))`: Python evaluates
`slugify_lower(r, 'role')` eagerly, so a non-string element raises even when
present in the lookup table. -/
def refSlug (lookup : List (String × String)) (r : PyVal) : Except PyErr PyVal := do
  let s ← asStr r
  return vstr (sgetD lookup s (slugify_lower s "role"))

/-- The body of the role-reference list comprehensions. -/
def mapRefs (lookup : List (String × String)) :
    List PyVal → Except PyErr (List PyVal)
  | [] => .ok []
  | r :: rest => do
    let x ← refSlug lookup r
    let out ← mapRefs lookup rest
    return x :: out

/-- `[role_lookup.get(r, slugify_lower(r, 'role')) for r in x]`. -/
def mapRoleRefs (lookup : List (String × String)) (x : PyVal) :
    Except PyErr PyVal := do
  let elems ← pyIter x
  let mapped ← mapRefs lookup elems
  return vlist mapped

/-- One iteration of the slots loop. -/
def slotOne (lookup : List (String × String)) (kv : IterKey × PyVal) :
    Except PyErr PyDict := do
  let slotPayload : PyDict := match kv.2 with
    | vdict m => m
    | _ => [("type", vstr "text")]
  let fallbackName : String := match kv.1 with
    | Sum.inl k => k
    | Sum.inr i => "slot_" ++ toString i
  let nameV := dgetD slotPayload "name" vnone
  let slotNameV := if truthy nameV then nameV else vstr fallbackName
  let slotName ← asStr slotNameV
  let slotSlug := slugify_lower slotName "slot"
  let sp := dset slotPayload "name" (vstr slotSlug)
  let sp := dsetdefault sp "type" (dgetD sp "fieldType" (vstr "text"))
  let sp := dsetdefault sp "description" (vstr (pyTitle slotName))
  let vis ← mapRoleRefs lookup (dgetD sp "visibility" (vlist []))
  let sp := dset sp "visibility" vis
  let ed ← mapRoleRefs lookup (dgetD sp "editable" (vlist []))
  let sp := dset sp "editable" ed
  return sp

/-- The slots loop over all entries. -/
def buildSlotsList (lookup : List (String × String)) :
    List (IterKey × PyVal) → Except PyErr (List PyDict)
  | [] => .ok []
  | kv :: rest => do
    let sp ← slotOne lookup kv
    let out ← buildSlotsList lookup rest
    return sp :: out

/-- One iteration of the states loop; `seq` is `len(normalized_states)` at the
time of the iteration. -/
def stateOne (lookup : List (String × String)) (kv : IterKey × PyVal)
    (seq : Nat) : Except PyErr PyDict := do
  let statePayload : PyDict := match kv.2 with
    | vdict m => m
    | _ => []
  let fallbackName : String := match kv.1 with
    | Sum.inl k => k
    | Sum.inr i => "state_" ++ toString i
  let nameV := dgetD statePayload "name" vnone
  let displayNameV := if truthy nameV then nameV else vstr fallbackName
  let displayName ← asStr displayNameV
  let slug := slugify_lower displayName "state"
  let sp := dset statePayload "name" (vstr slug)
  let sp := dsetdefault sp "type" (dgetD sp "phase" (vstr "collect"))
  let sp := dsetdefault sp "description" (vstr (pyTitle displayName))
  let allowedRoles := pyOr (dgetD sp "allowedRoles" (vlist []))
      (dgetD sp "participants" (vlist []))
  let arm ← mapRoleRefs lookup allowedRoles
  let sp := dset sp "allowedRoles" arm
  let sp := dsetdefault sp "requiredSlots" (vlist [])
  let sp := dsetdefault sp "transitions" (vdict [])
  let sp := dset sp "sequence" (vint seq)
  return sp

/-- The states loop over all entries; `seq` starts at 0 and follows
`len(normalized_states)`. -/
def buildStatesList (lookup : List (String × String)) (seq : Nat) :
    List (IterKey × PyVal) → Except PyErr (List PyDict)
  | [] => .ok []
  | kv :: rest => do
    let sp ← stateOne lookup kv seq
    let out ← buildStatesList lookup (seq + 1) rest
    return sp :: out

/-- `normalized_roles[i]['name']` (raises `KeyError` when absent; by
construction it never is). -/
def roleNameOf (rd : Option PyDict) : Except PyErr PyVal :=
  match rd with
  | some m =>
    match dget m "name" with
    | some v => .ok v
    | none => .error (.keyError "name")
  | none => .error (.keyError "name")

/-- The canonical 5-state skeleton used when no states were supplied; `r0` and
`rl` are `normalized_roles[0]['name']` and `normalized_roles[-1]['name']`. -/
def skeletonStates (r0 rl : PyVal) : List PyDict :=
  [[("name", vstr "express_need"), ("type", vstr "collect"),
    ("description", vstr "Gather initial request"), ("sequence", vint 0),
    ("requiredSlots", vlist []), ("allowedRoles", vlist [r0]),
    ("transitions", vdict [("always", vstr "explore_options")])],
   [("name", vstr "explore_options"), ("type", vstr "negotiate"),
    ("description", vstr "Discuss options"), ("sequence", vint 1),
    ("requiredSlots", vlist []), ("allowedRoles", vlist [r0, rl]),
    ("transitions", vdict [("always", vstr "commit_agreement")])],
   [("name", vstr "commit_agreement"), ("type", vstr "commit"),
    ("description", vstr "Confirm agreement"), ("sequence", vint 2),
    ("requiredSlots", vlist []), ("allowedRoles", vlist [rl]),
    ("transitions", vdict [("always", vstr "evidence_delivery")])],
   [("name", vstr "evidence_delivery"), ("type", vstr "evidence"),
    ("description", vstr "Provide proof of completion"), ("sequence", vint 3),
    ("requiredSlots", vlist []), ("allowedRoles", vlist [rl]),
    ("transitions", vdict [("always", vstr "confirm_outcome")])],
   [("name", vstr "confirm_outcome"), ("type", vstr "signoff"),
    ("description", vstr "Confirm success and close run"), ("sequence", vint 4),
    ("requiredSlots", vlist []), ("allowedRoles", vlist [r0]),
    ("transitions", vdict [])]]

/-- States paragraph: loop, then `if not normalized_states:` skeleton. -/
def buildStates (lookup : List (String × String)) (nroles : List PyDict)
    (states : PyVal) : Except PyErr (List PyDict) := do
  let out ← buildStatesList lookup 0 (iterKV states)
  if out.isEmpty then
    let r0 ← roleNameOf nroles.head?
    let rl ← roleNameOf nroles.getLast?
    return skeletonStates r0 rl
  else
    return out

/-- `normalize_compiled_template` (`apps/ai/main.py` lines 40–164): coerce
loose LLM output into the expected template structure.  `.error` marks the
inputs on which the Python function raises. -/
def normalize_compiled_template (templateJson : PyDict) : Except PyErr PyDict := do
  let data := aliasPattern templateJson
  let schemaPairs ← buildSchema (pyOr (dgetD data "schemaJson" vnone) (vdict []))
  let data := dset data "schemaJson" (vdict schemaPairs)
  let rolesOut ← buildRoles (dgetD data "roles" (vlist []))
  let roleLookup := rolesOut.1
  let nroles := rolesOut.2
  let data := dset data "roles" (vlist (nroles.map vdict))
  let nslots ← buildSlotsList roleLookup (iterKV (dgetD data "slots" (vlist [])))
  let data := dset data "slots"
      (if nslots.isEmpty then vnone else vlist (nslots.map vdict))
  let nstates ← buildStates roleLookup nroles (dgetD data "states" (vlist []))
  return dset data "states" (vlist (nstates.map vdict))

/-! ## Shape of the normalizer's output (claim C1) -/

/-- The `sequence` fields of a state list are `n, n+1, ...` in list order. -/
def seqCheck : List PyVal → Nat → Bool
  | [], _ => true
  | s :: rest, n =>
    (match s with
     | vdict m => match dget m "sequence" with
        | some (vint j) => j == (n : Int)
        | _ => false
     | _ => false) && seqCheck rest (n + 1)

/-- The canonical output shape claimed by the spec: `schemaJson` keyed by
exactly the five phases, non-empty `roles`, non-empty `states` with contiguous
`sequence` values `0..N-1`, and `slots` either a non-empty list or `None`. -/
def canonicalShape (r : PyDict) : Bool :=
  (match dget r "schemaJson" with
   | some (vdict m) =>
     m.map Prod.fst == ["express", "explore", "commit", "evidence", "confirm"]
   | _ => false) &&
  (match dget r "roles" with
   | some (vlist rs) => !rs.isEmpty
   | _ => false) &&
  (match dget r "states" with
   | some (vlist ss) => !ss.isEmpty && seqCheck ss 0
   | _ => false) &&
  (match dget r "slots" with
   | some vnone => true
   | some (vlist ls) => !ls.isEmpty
   | _ => false)

/-! ## Dictionary lemmas -/

/-! ## Inversion of `Except` programs -/

/-! ## Facts about the builders -/

/-! ## Character-level facts about `slugify_lower` -/

/-- Does an optional edge character avoid the underscore? -/
def noEdgeUnderscore : Option Char → Bool
  | some c => !(c == '_')
  | none => true

/-- The output well-formedness asserted for slugs: non-empty, only
`[a-z0-9_]`, no leading or trailing underscore. -/
def goodSlugOutput (r : String) : Bool :=
  !r.toList.isEmpty &&
  r.toList.all (fun c => isSlugChar c || c = '_') &&
  noEdgeUnderscore r.toList.head? &&
  noEdgeUnderscore r.toList.getLast?

/-! ## Well-formedness under which the normalizer cannot raise (claim C2)

`normalize_compiled_template` does raise on some wrongly-typed inputs (see the
C2 counterexample).  `normalizeWF` collects exactly the typing conditions the
exception sites need: phase entries that are present must be dicts, truthy
`name` fields must be strings, and role-reference collections
(`visibility`/`editable`/`allowedRoles`/`participants`) must iterate to
strings. -/

/-- Is the value a Python `str`? -/
def isStrV : PyVal → Bool
  | vstr _ => true
  | _ => false

/-- A present phase entry must be a dict (else `.get` raises). -/
def phaseOk (src : PyVal) (phase : String) : Bool :=
  match src with
  | vdict m =>
    match dgetD m phase (vdict []) with
    | vdict _ => true
    | _ => false
  | _ => true

/-- All five phase entries are safe. -/
def schemaOk (src : PyVal) : Bool := phases.all (phaseOk src)

/-- A truthy `name` field must be a string (else `.lower()` raises). -/
def entryNameOk (v : PyVal) : Bool :=
  match v with
  | vdict m => !(truthy (dgetD m "name" vnone)) || isStrV (dgetD m "name" vnone)
  | _ => true

/-- A role-reference collection must iterate to strings: a list of strings, a
string (iterates to one-character strings), or a dict (iterates to its keys). -/
def refsOk : PyVal → Bool
  | vlist xs => xs.all isStrV
  | vstr _ => true
  | vdict _ => true
  | _ => false

/-- Safety of one slot entry. -/
def slotEntryOk (v : PyVal) : Bool :=
  entryNameOk v &&
  (match v with
   | vdict m => refsOk (dgetD m "visibility" (vlist [])) &&
       refsOk (dgetD m "editable" (vlist []))
   | _ => true)

/-- Safety of one state entry. -/
def stateEntryOk (v : PyVal) : Bool :=
  entryNameOk v &&
  (match v with
   | vdict m => refsOk (pyOr (dgetD m "allowedRoles" (vlist []))
       (dgetD m "participants" (vlist [])))
   | _ => true)

/-- The conditions under which the normalizer is total. -/
def normalizeWF (d : PyDict) : Bool :=
  schemaOk (pyOr (dgetD (aliasPattern d) "schemaJson" vnone) (vdict [])) &&
  (iterKV (dgetD (aliasPattern d) "roles" (vlist []))).all
    (fun kv => entryNameOk kv.2) &&
  (iterKV (dgetD (aliasPattern d) "slots" (vlist []))).all
    (fun kv => slotEntryOk kv.2) &&
  (iterKV (dgetD (aliasPattern d) "states" (vlist []))).all
    (fun kv => stateEntryOk kv.2)

/-! ## Claim theorems -/

/-- The result of normalizing the empty dict, used as the C1 witness input. -/
def normalizeEmptyResult : PyDict :=
  match normalize_compiled_template [] with
  | .ok r => r
  | .error _ => []

/-- A well-formed input exercising roles, slots and states, for the C2 witness. -/
def c2wfInput : PyDict :=
  [("coordinationPattern", vdict [("commit", vdict [("requireDeposit", vbool true)])]),
   ("roles", vlist [vdict [("name", vstr "Primary Requester!")]]),
   ("slots", vlist [vdict [("name", vstr "My Slot"),
      ("editable", vlist [vstr "Primary Requester!"])]]),
   ("states", vlist [vdict [("name", vstr "First Step"),
      ("participants", vlist [vstr "Primary Requester!"])]])]

/-! ## `template_models.py`: the canonical template and its validators

The pydantic models of `apps/ai/template_models.py`, restricted to the fields
their validators read.  `validate_transitions` and `validate_tags` are field
validators; `validate_template_consistency` is the `mode='after'` model
validator, which stops at the first `raise ValueError`. -/

/-- `TemplateRoleModel` (fields the validators read). -/
structure TRole where
  name : String
  description : Option String
  minParticipants : Int
  maxParticipants : Option Int
  capabilities : List String

/-- `TemplateStateModel` (fields the validators read); `transitions` is the
raw `Dict[str, Any]`. -/
structure TState where
  name : String
  type : String
  sequence : Option Int
  requiredSlots : List String
  allowedRoles : List String
  transitions : List (String × PyVal)
  timeoutMinutes : Option Int

/-- `TemplateSlotModel` (fields the validators read). -/
structure TSlot where
  name : String
  type : String
  required : Bool
  visibility : List String
  editable : List String

/-- `CoordinationTemplateModel` (fields the validators read). -/
structure CTemplate where
  name : String
  description : String
  roles : List TRole
  states : List TState
  slots : Option (List TSlot)
  tags : List String

/-- The valid transition condition keys. -/
def validConditions : List String :=
  ["always", "approved", "rejected", "timeout", "manual"]

/-- `isinstance(target_states, (str, list))`. -/
def isStrOrList : PyVal → Bool
  | vstr _ => true
  | vlist _ => true
  | _ => false

/-- `validate_transitions` (`template_models.py` lines 194–204): scan the
transition items in order and raise at the first invalid condition key or
non-string/non-list target; `none` = accepted. -/
def validate_transitions : List (String × PyVal) → Option String
  | [] => none
  | (condition, target) :: rest =>
    if ¬ validConditions.contains condition then
      some ("Invalid transition condition: " ++ condition)
    else if ¬ isStrOrList target then
      some "Transition targets must be string or list of strings"
    else validate_transitions rest

/-- Python whitespace for `str.strip()` (ASCII fragment). -/
def pyIsSpace (c : Char) : Bool :=
  c = ' ' ∨ c = '\t' ∨ c = '\n' ∨ c = '\r' ∨ c = '\x0b' ∨ c = '\x0c'

/-- `tag.strip()`. -/
def pyStrip (s : String) : String :=
  (List.rdropWhile pyIsSpace (s.toList.dropWhile pyIsSpace)).asString

/-- A character of the tag class `[a-z0-9-]`. -/
def isTagChar (c : Char) : Bool := isSlugChar c ∨ c = '-'

/-- `re.match(r'^[a-z0-9-]+$', t)`. -/
def tagMatches (t : String) : Bool :=
  !t.toList.isEmpty && t.toList.all isTagChar

/-- `tag.strip().lower()`. -/
def cleanTag (tag : String) : String := pyLowerStr (pyStrip tag)

/-- `validate_tags` (`template_models.py` lines 337–346): strip+lower each
tag, keep those matching `[a-z0-9-]+` with length ≥ 2, drop the rest
silently, and return `list(set(cleaned_tags))`.  CPython's set order is
unspecified, so the dedup is modelled by `List.dedup`; only membership and
freedom from duplicates are claimed. -/
def validate_tags (v : List String) : List String :=
  (v.filterMap (fun tag =>
    let t := cleanTag tag
    if tagMatches t ∧ 2 ≤ t.length then some t else none)).dedup

/-- `f'State {state.name} references unknown role: {role_ref}'`. -/
def unknownRoleMsg (sname r : String) : String :=
  "State " ++ sname ++ " references unknown role: " ++ r

/-- `f'State {state.name} references unknown slot: {slot_ref}'`. -/
def unknownSlotMsg (sname sl : String) : String :=
  "State " ++ sname ++ " references unknown slot: " ++ sl

/-- `f'Slot {slot.name} references unknown role: {role_ref}'`. -/
def slotUnknownRoleMsg (slname r : String) : String :=
  "Slot " ++ slname ++ " references unknown role: " ++ r

/-- The sequence-contiguity error message. -/
def seqErrorMsg : String := "State sequences must be consecutive starting from 0"

/-- The states loop of `validate_template_consistency`: for each state, first
every `allowedRoles` reference, then every `requiredSlots` reference; the
first unresolved one raises. -/
def firstStateError (roleNames slotNames : List String) :
    List TState → Option String
  | [] => none
  | s :: rest =>
    match s.allowedRoles.find? (fun r => ¬ roleNames.contains r) with
    | some r => some (unknownRoleMsg s.name r)
    | none =>
      match s.requiredSlots.find? (fun x => ¬ slotNames.contains x) with
      | some x => some (unknownSlotMsg s.name x)
      | none => firstStateError roleNames slotNames rest

/-- The slots loop of `validate_template_consistency`: for each slot,
`slot.visibility + slot.editable` in order; the first unresolved reference
raises. -/
def firstSlotError (roleNames : List String) : List TSlot → Option String
  | [] => none
  | sl :: rest =>
    match (sl.visibility ++ sl.editable).find? (fun r => ¬ roleNames.contains r) with
    | some r => some (slotUnknownRoleMsg sl.name r)
    | none => firstSlotError roleNames rest

/-- The sequence check: collect non-null `sequence` values, sort, and compare
with `range(len(sequences))`. -/
def sequenceError (states : List TState) : Option String :=
  let sequences := (states.filterMap (fun s => s.sequence)).insertionSort (· ≤ ·)
  if sequences.isEmpty then none
  else if sequences = (List.range sequences.length).map Int.ofNat then none
  else some seqErrorMsg

/-- `{role.name for role in roles}` (membership-equivalent list). -/
def roleNamesOf (t : CTemplate) : List String := t.roles.map (·.name)

/-- `self.slots or []`. -/
def slotsOf (t : CTemplate) : List TSlot := t.slots.getD []

/-- `{slot.name for slot in slots}`. -/
def slotNamesOf (t : CTemplate) : List String := (slotsOf t).map (·.name)

/-- `validate_template_consistency` (`template_models.py` lines 348–386): the
first `raise ValueError` in check order, or `none` when the template is
consistent. -/
def validate_template_consistency (t : CTemplate) : Option String :=
  match firstStateError (roleNamesOf t) (slotNamesOf t) t.states with
  | some e => some e
  | none =>
    match firstSlotError (roleNamesOf t) (slotsOf t) with
    | some e => some e
    | none => sequenceError t.states

/-- The error list a caller sees from one validation run: pydantic wraps the
single raised `ValueError` of the model validator. -/
def reportedErrors (t : CTemplate) : List String :=
  (validate_template_consistency t).toList

/-- All cross-reference violations of one state, in check order. -/
def stateViolations (roleNames slotNames : List String) (s : TState) :
    List String :=
  (s.allowedRoles.filter (fun r => ¬ roleNames.contains r)).map
    (unknownRoleMsg s.name) ++
  (s.requiredSlots.filter (fun x => ¬ slotNames.contains x)).map
    (unknownSlotMsg s.name)

/-- All cross-reference violations of one slot, in check order. -/
def slotViolations (roleNames : List String) (sl : TSlot) : List String :=
  ((sl.visibility ++ sl.editable).filter (fun r => ¬ roleNames.contains r)).map
    (slotUnknownRoleMsg sl.name)

/-- Modelled from the spec: the full list of detected violations, in check
order — what the spec says a failed validation reports ("all detected errors
are reported together").  Compared against the code's `reportedErrors`. -/
def allViolations (t : CTemplate) : List String :=
  (t.states.map (stateViolations (roleNamesOf t) (slotNamesOf t))).flatten ++
  ((slotsOf t).map (slotViolations (roleNamesOf t))).flatten ++
  (sequenceError t.states).toList

/-- Some state's `allowedRoles` has a dangling reference. -/
def hasDanglingAllowedRole (t : CTemplate) : Bool :=
  t.states.any (fun s => s.allowedRoles.any
    (fun r => !(roleNamesOf t).contains r))

/-- `sub` occurs as a substring of `msg`. -/
def mentions (msg sub : String) : Prop := sub.toList <:+: msg.toList

instance (msg sub : String) : Decidable (mentions msg sub) := by
  unfold mentions
  infer_instance

/-- A state with the given name, allowed roles and required slots. -/
def mkState (n : String) (ar rs : List String) : TState :=
  ⟨n, "collect", none, rs, ar, [], none⟩

/-- C3's counterexample template: two states, each naming a role absent from
`roles`. -/
def tmplC3 : CTemplate :=
  ⟨"Two Words", "d", [⟨"requester", none, 1, none, []⟩],
   [mkState "s_one" ["ghost_one"] [], mkState "s_two" ["ghost_two"] []],
   none, []⟩

/-- C4's counterexample template: a dangling `requiredSlots` reference in the
first state precedes a dangling `allowedRoles` reference in the second. -/
def tmplC4 : CTemplate :=
  ⟨"Two Words", "d", [⟨"requester", none, 1, none, []⟩],
   [mkState "s_one" [] ["missing_slot"], mkState "s_two" ["ghost"] []],
   none, []⟩

/-- C4's witness state. -/
def tmplC4witState : TState := mkState "s_two" ["ghost"] []

/-- C4's witness template: a single state with one dangling role. -/
def tmplC4wit : CTemplate :=
  ⟨"Two Words", "d", [⟨"requester", none, 1, none, []⟩],
   [tmplC4witState], none, []⟩

/-! ## The raise-on-first validator reports the head of the violation list -/

/-! ## Claim theorems for the validators -/

/-! ## The run-state store (`therapy_facilitator_simple.py`)

`update_slot_data` (lines 149–175) and `transition_to_next_state`
(lines 177–217) over an explicit model of the `RunState` and `TemplateState`
tables.  SQL `UPDATE ... WHERE` is a map over the row list; `INSERT` appends;
timestamps are abstract naturals. -/

/-- A row of the `TemplateState` table (columns the agent reads). -/
structure TemplateStateRow where
  id : String
  templateId : String
  name : String

/-- A row of the `RunState` table. -/
structure RunStateRow where
  id : String
  runId : String
  stateId : String
  slotData : PyDict
  enteredAt : Nat
  exitedAt : Option Nat

/-- A row of the `CoordinationRun` table (columns the agent writes). -/
structure CoordinationRunRow where
  id : String
  templateId : String
  currentStateId : String
  status : String

/-- The SQL predicate `"runId" = %s AND "exitedAt" IS NULL`. -/
def isOpenFor (runId : String) (row : RunStateRow) : Bool :=
  row.runId == runId && row.exitedAt == none

/-- `SELECT "slotData" ... WHERE runId AND exitedAt IS NULL ORDER BY
"enteredAt" DESC LIMIT 1`: the slot data of the open row with the greatest
`enteredAt` (tie order is unspecified in SQL; the model keeps the earlier
row). -/
def latestOpenSlotData (db : List RunStateRow) (runId : String) :
    Option PyDict :=
  ((db.filter (isOpenFor runId)).foldl
    (fun acc row =>
      match acc with
      | none => some row
      | some best => if best.enteredAt < row.enteredAt then some row else some best)
    none).map (·.slotData)

/-- `update_slot_data` (lines 149–175): read the open row's slot data (or `{}`
when none), set the slot, and `UPDATE "RunState" SET "slotData" = ... WHERE
"runId" = ... AND "exitedAt" IS NULL` — every open row of the run receives the
new dict; no role is consulted and no error is possible. -/
def update_slot_data (db : List RunStateRow) (runId slotName : String)
    (value : PyVal) : List RunStateRow :=
  let slot_data := (latestOpenSlotData db runId).getD []
  let newData := dset slot_data slotName value
  db.map (fun row =>
    if isOpenFor runId row then { row with slotData := newData } else row)

/-- `transition_to_next_state` (lines 177–217): look up the next state by
`(templateId, name)`; when absent, print a warning and change nothing; when
found, close every open `RunState` row of the run, insert one fresh open row,
and point the run's `currentStateId` at the new state. -/
def transition_to_next_state (states : List TemplateStateRow)
    (run : CoordinationRunRow) (runId nextStateName newId : String) (now : Nat)
    (db : List RunStateRow) : List RunStateRow × CoordinationRunRow :=
  match states.find? (fun st =>
      st.templateId == run.templateId && st.name == nextStateName) with
  | none => (db, run)
  | some ns =>
    let db := db.map (fun row =>
      if isOpenFor runId row then { row with exitedAt := some now } else row)
    let newRow : RunStateRow := ⟨newId, runId, ns.id, [], now, none⟩
    let db := db ++ [newRow]
    (db, { run with currentStateId := ns.id })

/-- The number of open `RunState` rows of a run. -/
def countOpen (db : List RunStateRow) (runId : String) : Nat :=
  db.countP (isOpenFor runId)

/-- An open `RunState` row for the C5/C6 witnesses and counterexample. -/
def c5row : RunStateRow := ⟨"rs1", "run1", "st1", [], 0, none⟩

/-- A one-row `RunState` table with a single open row. -/
def c5db : List RunStateRow := [c5row]

/-- The `TemplateState` table for the C6 witness. -/
def c6states : List TemplateStateRow := [⟨"ts2", "tmpl1", "share_a"⟩]

/-- The `CoordinationRun` row for the C6 witness. -/
def c6run : CoordinationRunRow := ⟨"run1", "tmpl1", "ts1", "in_progress"⟩

/-! ## Theorems -/

theorem dget_dset_self (d : PyDict) (k : String) (v : PyVal) :
    dget (dset d k v) k = some v := by
  induction d with
  | nil => simp [dset, dget, List.find?]
  | cons p rest ih =>
    by_cases h : p.1 = k
    · simp [dset, h, dget, List.find?]
    · simpa [dset, h, dget, List.find?] using ih

theorem dget_dset_ne (d : PyDict) (k k' : String) (v : PyVal) (h : k' ≠ k) :
    dget (dset d k v) k' = dget d k' := by
  have hkk : ¬ (k = k') := fun e => h e.symm
  induction d with
  | nil => simp [dset, dget, List.find?, hkk]
  | cons p rest ih =>
    by_cases hp : p.1 = k
    · have hpk' : ¬ (p.1 = k') := by rw [hp]; exact hkk
      simp [dset, hp, dget, List.find?, hkk, hpk']
    · by_cases hp' : p.1 = k'
      · simp [dset, hp, h, hkk, dget, List.find?, hp']
      · simp only [dset, if_neg hp]
        simp only [dget, List.find?, hp', decide_False] at ih ⊢
        exact ih

theorem dget_dsetdefault_ne (d : PyDict) (k k' : String) (v : PyVal)
    (h : k' ≠ k) : dget (dsetdefault d k v) k' = dget d k' := by
  unfold dsetdefault
  by_cases hd : (dget d k).isSome
  · simp [hd]
  · simp only [hd, if_false, Bool.false_eq_true]
    unfold dget
    rw [List.find?_append]
    cases hf : (d.find? fun p => p.1 = k') with
    | some p => simp
    | none => simp [List.find?, Ne.symm h]

theorem dget_dsetdefault_present (d : PyDict) (k : String) (v : PyVal)
    (h : (dget d k).isSome) : dsetdefault d k v = d := by
  simp [dsetdefault, h]

theorem bind_ok {α β : Type} {e : Except PyErr α} {f : α → Except PyErr β}
    {b : β} (h : e.bind f = .ok b) : ∃ a, e = .ok a ∧ f a = .ok b := by
  cases e with
  | error _ => simp [Except.bind] at h
  | ok a => exact ⟨a, rfl, by simpa [Except.bind] using h⟩

theorem ok_of_parts {α β : Type} {e : Except PyErr α} {f : α → Except PyErr β}
    {a : α} (h : e = .ok a) (hf : (f a).isOk = true) : (e.bind f).isOk = true := by
  rw [h]; simpa [Except.bind] using hf

theorem buildSchema_keys {src : PyVal} {ps : PyDict}
    (h : buildSchema src = .ok ps) :
    ps.map Prod.fst = ["express", "explore", "commit", "evidence", "confirm"] := by
  unfold buildSchema at h
  simp only [bind] at h
  obtain ⟨e, he, h⟩ := bind_ok h
  obtain ⟨x, hx, h⟩ := bind_ok h
  obtain ⟨c, hc, h⟩ := bind_ok h
  obtain ⟨v, hv, h⟩ := bind_ok h
  obtain ⟨f, hf, h⟩ := bind_ok h
  simp only [pure, Except.pure, Except.ok.injEq] at h
  subst h; rfl

theorem buildRoles_ne_nil {roles : PyVal}
    {lk : List (String × String)} {nroles : List PyDict}
    (h : buildRoles roles = .ok (lk, nroles)) : nroles ≠ [] := by
  unfold buildRoles at h
  simp only [bind] at h
  obtain ⟨a, _, h⟩ := bind_ok h
  obtain ⟨alk, aroles⟩ := a
  dsimp only at h
  by_cases hemp : aroles.isEmpty = true
  · rw [if_pos hemp] at h
    simp only [pure, Except.pure, Except.ok.injEq, Prod.mk.injEq] at h
    rw [← h.2]
    simp [defaultRoles]
  · rw [if_neg hemp] at h
    simp only [pure, Except.pure, Except.ok.injEq, Prod.mk.injEq] at h
    intro hn
    rw [h.2, hn] at hemp
    exact hemp rfl

theorem stateOne_seq {lookup : List (String × String)} {kv : IterKey × PyVal}
    {seq : Nat} {sp : PyDict} (h : stateOne lookup kv seq = .ok sp) :
    dget sp "sequence" = some (vint (seq : Int)) := by
  unfold stateOne at h
  simp only [bind] at h
  obtain ⟨dn, _, h⟩ := bind_ok h
  obtain ⟨arm, _, h⟩ := bind_ok h
  simp only [pure, Except.pure, Except.ok.injEq] at h
  subst h
  exact dget_dset_self _ _ _

theorem buildStatesList_seq {lookup : List (String × String)} :
    ∀ (kvs : List (IterKey × PyVal)) (n : Nat) (l : List PyDict),
      buildStatesList lookup n kvs = .ok l →
      seqCheck (l.map vdict) n = true := by
  intro kvs
  induction kvs with
  | nil =>
    intro n l h
    simp only [buildStatesList, Except.ok.injEq] at h
    subst h; rfl
  | cons kv rest ih =>
    intro n l h
    unfold buildStatesList at h
    simp only [bind] at h
    obtain ⟨sp, hsp, h⟩ := bind_ok h
    obtain ⟨out, hout, h⟩ := bind_ok h
    simp only [pure, Except.pure, Except.ok.injEq] at h
    subst h
    simp only [List.map, seqCheck, stateOne_seq hsp, Int.ofNat_eq_coe]
    simp only [beq_self_eq_true, Bool.true_and]
    exact ih (n + 1) out hout

theorem seqCheck_skeleton (r0 rl : PyVal) :
    seqCheck ((skeletonStates r0 rl).map vdict) 0 = true := rfl

theorem buildStates_shape {lookup : List (String × String)}
    {nroles : List PyDict} {states : PyVal} {l : List PyDict}
    (h : buildStates lookup nroles states = .ok l) :
    l ≠ [] ∧ seqCheck (l.map vdict) 0 = true := by
  unfold buildStates at h
  simp only [bind] at h
  obtain ⟨out, hout, h⟩ := bind_ok h
  by_cases hemp : out.isEmpty = true
  · rw [if_pos hemp] at h
    obtain ⟨r0, _, h⟩ := bind_ok h
    obtain ⟨rl, _, h⟩ := bind_ok h
    simp only [pure, Except.pure, Except.ok.injEq] at h
    subst h
    exact ⟨by simp [skeletonStates], seqCheck_skeleton r0 rl⟩
  · rw [if_neg hemp] at h
    simp only [pure, Except.pure, Except.ok.injEq] at h
    subst h
    refine ⟨fun hn => hemp (by rw [hn]; rfl), buildStatesList_seq _ 0 _ hout⟩

theorem dget_quad_schemaJson (b0 : PyDict) (S R L T : PyVal) :
    dget (dset (dset (dset (dset b0 "schemaJson" S) "roles" R) "slots" L)
      "states" T) "schemaJson" = some S := by
  rw [dget_dset_ne _ _ _ _ (by decide), dget_dset_ne _ _ _ _ (by decide),
    dget_dset_ne _ _ _ _ (by decide), dget_dset_self]

theorem dget_quad_roles (b0 : PyDict) (S R L T : PyVal) :
    dget (dset (dset (dset (dset b0 "schemaJson" S) "roles" R) "slots" L)
      "states" T) "roles" = some R := by
  rw [dget_dset_ne _ _ _ _ (by decide), dget_dset_ne _ _ _ _ (by decide),
    dget_dset_self]

theorem dget_quad_slots (b0 : PyDict) (S R L T : PyVal) :
    dget (dset (dset (dset (dset b0 "schemaJson" S) "roles" R) "slots" L)
      "states" T) "slots" = some L := by
  rw [dget_dset_ne _ _ _ _ (by decide), dget_dset_self]

theorem dget_quad_states (b0 : PyDict) (S R L T : PyVal) :
    dget (dset (dset (dset (dset b0 "schemaJson" S) "roles" R) "slots" L)
      "states" T) "states" = some T := dget_dset_self _ _ _

theorem mem_collapseNonSlug {c : Char} :
    ∀ {l : List Char}, c ∈ collapseNonSlug l →
      isSlugChar c = true ∨ c = '_' := by
  intro l
  induction l using collapseNonSlug.induct with
  | case1 => intro h; simp [collapseNonSlug] at h
  | case2 x hx =>
    intro h
    simp only [collapseNonSlug, if_pos hx, List.mem_singleton] at h
    exact Or.inl (h ▸ hx)
  | case3 x hx =>
    intro h
    simp only [collapseNonSlug, if_neg hx, List.mem_singleton] at h
    exact Or.inr h
  | case4 x y rest hx ih =>
    intro h
    simp only [collapseNonSlug, if_pos hx, List.mem_cons] at h
    rcases h with h | h
    · exact Or.inl (h ▸ hx)
    · exact ih h
  | case5 x y rest hx hy ih =>
    intro h
    simp only [collapseNonSlug, if_neg hx, if_pos hy, List.mem_cons] at h
    rcases h with h | h
    · exact Or.inr h
    · exact ih h
  | case6 x y rest hx hy ih =>
    intro h
    simp only [collapseNonSlug, if_neg hx, if_neg hy] at h
    exact ih h

theorem collapseNonSlug_all_underscore :
    ∀ {l : List Char}, (∀ c ∈ l, isSlugChar c = false) →
      ∀ c ∈ collapseNonSlug l, c = '_' := by
  intro l
  induction l using collapseNonSlug.induct with
  | case1 => intro _ c hc; simp [collapseNonSlug] at hc
  | case2 x hx =>
    intro h c hc
    exact absurd hx (by simp [h x (List.mem_singleton_self x)])
  | case3 x hx =>
    intro h c hc
    simp only [collapseNonSlug, if_neg hx, List.mem_singleton] at hc
    exact hc
  | case4 x y rest hx ih =>
    intro h c hc
    exact absurd hx (by simp [h x (List.mem_cons_self _ _)])
  | case5 x y rest hx hy ih =>
    intro h c hc
    simp only [collapseNonSlug, if_neg hx, if_pos hy, List.mem_cons] at hc
    rcases hc with hc | hc
    · exact hc
    · exact ih (fun d hd => h d (List.mem_cons_of_mem _ hd)) c hc
  | case6 x y rest hx hy ih =>
    intro h c hc
    simp only [collapseNonSlug, if_neg hx, if_neg hy] at hc
    exact ih (fun d hd => h d (List.mem_cons_of_mem _ hd)) c hc

theorem collapseNonSlug_has_slug {x : Char} :
    ∀ {l : List Char}, x ∈ l → isSlugChar x = true →
      ∃ c ∈ collapseNonSlug l, isSlugChar c = true := by
  intro l
  induction l using collapseNonSlug.induct with
  | case1 => intro h; simp at h
  | case2 y hy =>
    intro hm hs
    rw [List.mem_singleton] at hm
    subst hm
    exact ⟨x, by simp [collapseNonSlug, if_pos hs], hs⟩
  | case3 y hy =>
    intro hm hs
    rw [List.mem_singleton] at hm
    subst hm
    exact absurd hs (by simp [hy])
  | case4 y z rest hy ih =>
    intro hm hs
    rw [List.mem_cons] at hm
    rcases hm with hm | hm
    · subst hm
      exact ⟨x, by simp [collapseNonSlug, if_pos hy], hs⟩
    · obtain ⟨c, hc, hcs⟩ := ih hm hs
      refine ⟨c, ?_, hcs⟩
      simp only [collapseNonSlug, if_pos hy, List.mem_cons]
      exact Or.inr hc
  | case5 y z rest hy hz ih =>
    intro hm hs
    rw [List.mem_cons] at hm
    rcases hm with hm | hm
    · subst hm; exact absurd hs (by simp [hy])
    · obtain ⟨c, hc, hcs⟩ := ih hm hs
      refine ⟨c, ?_, hcs⟩
      simp only [collapseNonSlug, if_neg hy, if_pos hz, List.mem_cons]
      exact Or.inr hc
  | case6 y z rest hy hz ih =>
    intro hm hs
    rw [List.mem_cons] at hm
    rcases hm with hm | hm
    · subst hm; exact absurd hs (by simp [hy])
    · obtain ⟨c, hc, hcs⟩ := ih hm hs
      refine ⟨c, ?_, hcs⟩
      simpa only [collapseNonSlug, if_neg hy, if_neg hz] using hc

theorem mem_dropWhile_of_not {p : Char → Bool} {x : Char} :
    ∀ {l : List Char}, x ∈ l → p x = false → x ∈ l.dropWhile p := by
  intro l
  induction l with
  | nil => intro h; simp at h
  | cons a rest ih =>
    intro hm hp
    rw [List.mem_cons] at hm
    cases ha : p a with
    | true =>
      rw [List.dropWhile_cons_of_pos ha]
      rcases hm with hm | hm
      · subst hm; rw [hp] at ha; exact absurd ha (by simp)
      · exact ih hm hp
    | false =>
      rw [List.dropWhile_cons_of_neg (by simp [ha])]
      rcases hm with hm | hm
      · exact hm ▸ List.mem_cons_self _ _
      · exact List.mem_cons_of_mem _ (hm)

theorem head?_dropWhile_not {p : Char → Bool} {c : Char} :
    ∀ {l : List Char}, (l.dropWhile p).head? = some c → p c = false := by
  intro l
  induction l with
  | nil => intro h; simp [List.dropWhile] at h
  | cons a rest ih =>
    intro h
    cases ha : p a with
    | true => rw [List.dropWhile_cons_of_pos ha] at h; exact ih h
    | false =>
      rw [List.dropWhile_cons_of_neg (by simp [ha])] at h
      simp only [List.head?_cons, Option.some.injEq] at h
      exact h ▸ ha

theorem mem_rdropWhile_of_not {p : Char → Bool} {x : Char} {l : List Char}
    (hx : x ∈ l) (hpx : p x = false) : x ∈ l.rdropWhile p := by
  rw [List.rdropWhile, List.mem_reverse]
  exact mem_dropWhile_of_not (List.mem_reverse.mpr hx) hpx

theorem slugify_lower_fallback {s fb : String}
    (h : (s.toList.map pyLowerChar).any isSlugChar = false) :
    slugify_lower s fb = fb := by
  unfold slugify_lower
  have hall : ∀ c ∈ s.toList.map pyLowerChar, isSlugChar c = false := by
    intro c hc
    exact Bool.eq_false_iff.mpr ((List.any_eq_false.mp h) c hc)
  have hund := collapseNonSlug_all_underscore hall
  have hdrop : (collapseNonSlug (s.toList.map pyLowerChar)).dropWhile
      (fun c => c = '_') = [] := by
    rw [List.dropWhile_eq_nil_iff]
    intro c hc
    simp [hund c hc]
  rw [stripUnderscores, hdrop, List.rdropWhile_nil]
  simp [String.asString_nil]

theorem slugify_lower_good {s fb : String}
    (h : (s.toList.map pyLowerChar).any isSlugChar = true) :
    goodSlugOutput (slugify_lower s fb) = true := by
  obtain ⟨x, hxL, hxs⟩ := List.any_eq_true.mp h
  have hxne : (fun c => decide (c = '_')) x = false := by
    cases hx : decide (x = '_') with
    | false => simp [hx]
    | true =>
      have : x = '_' := of_decide_eq_true hx
      rw [this] at hxs
      exact absurd hxs (by decide)
  obtain ⟨c, hcC, hcs⟩ := collapseNonSlug_has_slug hxL hxs
  have hcne : (fun c => decide (c = '_')) c = false := by
    cases hx : decide (c = '_') with
    | false => simp [hx]
    | true =>
      have : c = '_' := of_decide_eq_true hx
      rw [this] at hcs
      exact absurd hcs (by decide)
  set C := collapseNonSlug (s.toList.map pyLowerChar) with hC
  have hcR : c ∈ stripUnderscores C := by
    rw [stripUnderscores]
    exact mem_rdropWhile_of_not (mem_dropWhile_of_not hcC hcne) hcne
  have hRne : stripUnderscores C ≠ [] := fun hn => by rw [hn] at hcR; simp at hcR
  have hclean : (stripUnderscores C).asString ≠ "" := by
    intro hn
    rw [← String.asString_nil, List.asString_inj] at hn
    exact hRne hn
  unfold slugify_lower
  rw [if_neg (by rw [← hC]; exact hclean)]
  unfold goodSlugOutput
  rw [← hC, List.toList_asString]
  have hsub : ∀ d ∈ stripUnderscores C, d ∈ C := by
    intro d hd
    rw [stripUnderscores] at hd
    exact (List.dropWhile_suffix _).subset ((List.rdropWhile_prefix _ _).subset hd)
  refine ?_
  have h1 : (stripUnderscores C).isEmpty = false := by
    cases hn : stripUnderscores C with
    | nil => exact absurd hn hRne
    | cons a b => rfl
  have h2 : (stripUnderscores C).all (fun c => isSlugChar c || c = '_') = true := by
    rw [List.all_eq_true]
    intro d hd
    rcases mem_collapseNonSlug (hsub d hd) with hds | hdu
    · simp [hds]
    · simp [hdu]
  have h3 : noEdgeUnderscore (stripUnderscores C).head? = true := by
    cases hn : stripUnderscores C with
    | nil => rfl
    | cons a R' =>
      have hpre := List.rdropWhile_prefix (fun c => decide (c = '_'))
        (C.dropWhile (fun c => decide (c = '_')))
      rw [stripUnderscores] at hn
      rw [hn] at hpre
      obtain ⟨t, ht⟩ := hpre
      have hheadA : (C.dropWhile (fun c => decide (c = '_'))).head? = some a := by
        rw [← ht]; rfl
      have hna := head?_dropWhile_not hheadA
      simp only [decide_eq_false_iff_not] at hna
      simp [noEdgeUnderscore, hna]
  have h4 : noEdgeUnderscore (stripUnderscores C).getLast? = true := by
    cases hg : (stripUnderscores C).getLast? with
    | none => rfl
    | some a =>
      rw [stripUnderscores, List.rdropWhile, List.getLast?_reverse] at hg
      have hna := head?_dropWhile_not hg
      simp only [decide_eq_false_iff_not] at hna
      simp [noEdgeUnderscore, hna]
  rw [h1, h2, h3, h4]
  rfl

theorem slugify_lower_ne_empty {s fb : String} (hfb : fb ≠ "") :
    slugify_lower s fb ≠ "" := by
  cases h : (s.toList.map pyLowerChar).any isSlugChar with
  | false => rw [slugify_lower_fallback h]; exact hfb
  | true =>
    have := @slugify_lower_good s fb h
    unfold goodSlugOutput at this
    intro hn
    rw [hn] at this
    simp at this

/-- Claim C1 core: any dict the normalizer returns passes the canonical-shape
check. -/
theorem normalize_shape_core {d r : PyDict}
    (h : normalize_compiled_template d = .ok r) : canonicalShape r = true := by
  unfold normalize_compiled_template at h
  simp only [bind] at h
  obtain ⟨schemaPairs, hS, h⟩ := bind_ok h
  obtain ⟨rolesOut, hR, h⟩ := bind_ok h
  obtain ⟨nslots, hL, h⟩ := bind_ok h
  obtain ⟨nstates, hT, h⟩ := bind_ok h
  simp only [pure, Except.pure, Except.ok.injEq] at h
  subst h
  have hkeys := buildSchema_keys hS
  have hroles := @buildRoles_ne_nil _ rolesOut.1 rolesOut.2
    (by simpa using hR)
  have hstates := buildStates_shape hT
  have h1 : (rolesOut.2.map vdict).isEmpty = false := by
    cases h2 : rolesOut.2 with
    | nil => exact absurd h2 hroles
    | cons a b => rfl
  have h2 : (nstates.map vdict).isEmpty = false := by
    cases h3 : nstates with
    | nil => exact absurd h3 hstates.1
    | cons a b => rfl
  unfold canonicalShape
  rw [dget_quad_schemaJson, dget_quad_roles, dget_quad_slots, dget_quad_states]
  simp only [hkeys, h1, h2, hstates.2, Bool.not_false, Bool.true_and,
    Bool.and_true, beq_self_eq_true]
  cases hslots : nslots.isEmpty with
  | true => rw [if_pos rfl]
  | false =>
    rw [if_neg Bool.false_ne_true]
    cases h3 : nslots with
    | nil => rw [h3] at hslots; simp at hslots
    | cons a b => simp [h3]

theorem buildPhase_ok {src : PyVal} {p : String} (h : phaseOk src p = true) :
    ∃ pv, buildPhase src p = .ok pv := by
  unfold buildPhase
  cases src with
  | vdict m =>
    dsimp only
    cases hm : dgetD m p (vdict []) with
    | vdict pm => exact ⟨_, rfl⟩
    | vnone => simp only [phaseOk] at h; rw [hm] at h; simp at h
    | vbool b => simp only [phaseOk] at h; rw [hm] at h; simp at h
    | vint n => simp only [phaseOk] at h; rw [hm] at h; simp at h
    | vstr s => simp only [phaseOk] at h; rw [hm] at h; simp at h
    | vlist xs => simp only [phaseOk] at h; rw [hm] at h; simp at h
  | vnone => exact ⟨_, rfl⟩
  | vbool b => exact ⟨_, rfl⟩
  | vint n => exact ⟨_, rfl⟩
  | vstr s => exact ⟨_, rfl⟩
  | vlist xs => exact ⟨_, rfl⟩

theorem buildSchema_ok {src : PyVal} (h : schemaOk src = true) :
    ∃ ps, buildSchema src = .ok ps := by
  unfold schemaOk phases at h
  simp only [List.all_cons, List.all_nil, Bool.and_eq_true, Bool.and_true] at h
  obtain ⟨h1, h2, h3, h4, h5⟩ := h
  obtain ⟨e, he⟩ := buildPhase_ok h1
  obtain ⟨x, hx⟩ := buildPhase_ok h2
  obtain ⟨c, hc⟩ := buildPhase_ok h3
  obtain ⟨v, hv⟩ := buildPhase_ok h4
  obtain ⟨f, hf⟩ := buildPhase_ok h5
  refine ⟨[("express", e), ("explore", x), ("commit", c), ("evidence", v),
    ("confirm", f)], ?_⟩
  unfold buildSchema
  simp only [bind]
  rw [he, hx, hc, hv, hf]
  rfl

theorem roleOne_ok {lookup : List (String × String)} {kv : IterKey × PyVal}
    (h : entryNameOk kv.2 = true) : ∃ res, roleOne lookup kv = .ok res := by
  obtain ⟨key, value⟩ := kv
  unfold roleOne
  simp only [bind]
  cases value with
  | vdict m =>
    dsimp only
    simp only [entryNameOk] at h
    by_cases ht : truthy (dgetD m "name" vnone) = true
    · rw [if_pos ht]
      rw [ht] at h
      simp only [Bool.not_true, Bool.false_or] at h
      cases hn : dgetD m "name" vnone with
      | vstr s => exact ⟨_, rfl⟩
      | vnone => rw [hn] at h; simp [isStrV] at h
      | vbool b => rw [hn] at h; simp [isStrV] at h
      | vint n => rw [hn] at h; simp [isStrV] at h
      | vlist xs => rw [hn] at h; simp [isStrV] at h
      | vdict mm => rw [hn] at h; simp [isStrV] at h
    · rw [if_neg ht]
      exact ⟨_, rfl⟩
  | vnone => exact ⟨_, rfl⟩
  | vbool b => exact ⟨_, rfl⟩
  | vint n => exact ⟨_, rfl⟩
  | vstr s => exact ⟨_, rfl⟩
  | vlist xs => exact ⟨_, rfl⟩

theorem buildRolesList_ok :
    ∀ (kvs : List (IterKey × PyVal)) (lookup : List (String × String)),
      (∀ kv ∈ kvs, entryNameOk kv.2 = true) →
      ∃ res, buildRolesList lookup kvs = .ok res := by
  intro kvs
  induction kvs with
  | nil => exact fun lookup _ => ⟨_, rfl⟩
  | cons kv rest ih =>
    intro lookup h
    obtain ⟨⟨lk1, rp⟩, h1⟩ := @roleOne_ok lookup _
      (h kv (List.mem_cons_self _ _))
    obtain ⟨⟨lkF, out⟩, h2⟩ := ih lk1
      (fun kv' hkv' => h kv' (List.mem_cons_of_mem _ hkv'))
    refine ⟨(lkF, rp :: out), ?_⟩
    unfold buildRolesList
    simp only [bind]
    rw [h1]
    simp only [Except.bind]
    rw [h2]
    rfl

theorem buildRoles_ok {roles : PyVal}
    (h : (iterKV roles).all (fun kv => entryNameOk kv.2) = true) :
    ∃ res, buildRoles roles = .ok res := by
  obtain ⟨⟨lkF, out⟩, h1⟩ := buildRolesList_ok (iterKV roles) []
    (fun kv hkv => (List.all_eq_true.mp h) kv hkv)
  by_cases he : out.isEmpty = true
  · refine ⟨(sset (sset lkF "requester" "requester") "provider" "provider",
      defaultRoles), ?_⟩
    unfold buildRoles
    simp only [bind]
    rw [h1]
    simp only [Except.bind]
    rw [if_pos he]
    rfl
  · refine ⟨(lkF, out), ?_⟩
    unfold buildRoles
    simp only [bind]
    rw [h1]
    simp only [Except.bind]
    rw [if_neg he]
    rfl

theorem mapRefs_ok {lookup : List (String × String)} :
    ∀ {elems : List PyVal}, (∀ r ∈ elems, isStrV r = true) →
      ∃ out, mapRefs lookup elems = .ok out := by
  intro elems
  induction elems with
  | nil => exact fun _ => ⟨[], rfl⟩
  | cons r rest ih =>
    intro h
    have hr := h r (List.mem_cons_self _ _)
    obtain ⟨out, hout⟩ := ih (fun x hx => h x (List.mem_cons_of_mem _ hx))
    cases r with
    | vstr s =>
      refine ⟨vstr (sgetD lookup s (slugify_lower s "role")) :: out, ?_⟩
      unfold mapRefs
      simp only [bind]
      rw [show refSlug lookup (vstr s) =
        .ok (vstr (sgetD lookup s (slugify_lower s "role"))) from rfl]
      simp only [Except.bind]
      rw [hout]
      rfl
    | vnone => simp [isStrV] at hr
    | vbool b => simp [isStrV] at hr
    | vint n => simp [isStrV] at hr
    | vlist xs => simp [isStrV] at hr
    | vdict m => simp [isStrV] at hr

theorem pyIter_ok {x : PyVal} (h : refsOk x = true) :
    ∃ elems, pyIter x = .ok elems ∧ ∀ r ∈ elems, isStrV r = true := by
  cases x with
  | vlist xs =>
    exact ⟨xs, rfl, fun r hr => (List.all_eq_true.mp h) r hr⟩
  | vstr s =>
    refine ⟨_, rfl, ?_⟩
    intro r hr
    obtain ⟨c, _, hc⟩ := List.mem_map.mp hr
    rw [← hc]
    rfl
  | vdict m =>
    refine ⟨_, rfl, ?_⟩
    intro r hr
    obtain ⟨p, _, hp⟩ := List.mem_map.mp hr
    rw [← hp]
    rfl
  | vnone => simp [refsOk] at h
  | vbool b => simp [refsOk] at h
  | vint n => simp [refsOk] at h

theorem mapRoleRefs_ok {lookup : List (String × String)} {x : PyVal}
    (h : refsOk x = true) : ∃ v, mapRoleRefs lookup x = .ok v := by
  obtain ⟨elems, hel, hstr⟩ := pyIter_ok h
  obtain ⟨out, hout⟩ := mapRefs_ok hstr
  refine ⟨vlist out, ?_⟩
  unfold mapRoleRefs
  simp only [bind]
  rw [hel]
  simp only [Except.bind]
  rw [hout]
  rfl

theorem dgetD_dset_ne (d : PyDict) (k k' : String) (v dflt : PyVal)
    (h : k' ≠ k) : dgetD (dset d k v) k' dflt = dgetD d k' dflt := by
  unfold dgetD
  rw [dget_dset_ne _ _ _ _ h]

/-- Reading any key other than `name`/`type`/`description` through the
normalizer's payload-update chain sees the original payload. -/
theorem payloadChain_get (m : PyDict) (nv tv dv : PyVal) (k : String)
    (hk1 : k ≠ "name") (hk2 : k ≠ "type") (hk3 : k ≠ "description") :
    dgetD (dsetdefault (dsetdefault (dset m "name" nv) "type" tv)
      "description" dv) k (vlist []) = dgetD m k (vlist []) := by
  unfold dgetD
  rw [dget_dsetdefault_ne _ _ _ _ hk3, dget_dsetdefault_ne _ _ _ _ hk2,
    dget_dset_ne _ _ _ _ hk1]

/-- The same, through the additional `visibility` assignment of the slot loop. -/
theorem payloadChain2_get (m : PyDict) (nv tv dv vv : PyVal) (k : String)
    (hk0 : k ≠ "visibility") (hk1 : k ≠ "name") (hk2 : k ≠ "type")
    (hk3 : k ≠ "description") :
    dgetD (dset (dsetdefault (dsetdefault (dset m "name" nv) "type" tv)
      "description" dv) "visibility" vv) k (vlist []) = dgetD m k (vlist []) := by
  unfold dgetD
  rw [dget_dset_ne _ _ _ _ hk0, dget_dsetdefault_ne _ _ _ _ hk3,
    dget_dsetdefault_ne _ _ _ _ hk2, dget_dset_ne _ _ _ _ hk1]

theorem slotOne_ok {lookup : List (String × String)} {kv : IterKey × PyVal}
    (h : slotEntryOk kv.2 = true) : ∃ sp, slotOne lookup kv = .ok sp := by
  obtain ⟨key, value⟩ := kv
  unfold slotOne
  simp only [bind]
  cases value with
  | vdict m =>
    dsimp only
    simp only [slotEntryOk, entryNameOk] at h
    simp only [Bool.and_eq_true] at h
    obtain ⟨hname, hvis, hed⟩ := h
    obtain ⟨visv, hviso⟩ := @mapRoleRefs_ok lookup _ hvis
    obtain ⟨edv, hedo⟩ := @mapRoleRefs_ok lookup _ hed
    by_cases ht : truthy (dgetD m "name" vnone) = true
    · rw [if_pos ht]
      rw [ht] at hname
      simp only [Bool.not_true, Bool.false_or] at hname
      cases hn : dgetD m "name" vnone with
      | vstr s =>
        dsimp only [asStr]
        simp only [Except.bind]
        rw [payloadChain_get _ _ _ _ _ (by decide) (by decide) (by decide),
          hviso]
        dsimp only
        rw [payloadChain2_get _ _ _ _ _ _ (by decide) (by decide) (by decide)
          (by decide), hedo]
        exact ⟨_, rfl⟩
      | vnone => rw [hn] at hname; simp [isStrV] at hname
      | vbool b => rw [hn] at hname; simp [isStrV] at hname
      | vint n => rw [hn] at hname; simp [isStrV] at hname
      | vlist xs => rw [hn] at hname; simp [isStrV] at hname
      | vdict mm => rw [hn] at hname; simp [isStrV] at hname
    · rw [if_neg ht]
      dsimp only [asStr]
      simp only [Except.bind]
      rw [payloadChain_get _ _ _ _ _ (by decide) (by decide) (by decide),
        hviso]
      dsimp only
      rw [payloadChain2_get _ _ _ _ _ _ (by decide) (by decide) (by decide)
        (by decide), hedo]
      exact ⟨_, rfl⟩
  | vnone => exact ⟨_, rfl⟩
  | vbool b => exact ⟨_, rfl⟩
  | vint n => exact ⟨_, rfl⟩
  | vstr s => exact ⟨_, rfl⟩
  | vlist xs => exact ⟨_, rfl⟩

theorem buildSlotsList_ok {lookup : List (String × String)} :
    ∀ (kvs : List (IterKey × PyVal)),
      (∀ kv ∈ kvs, slotEntryOk kv.2 = true) →
      ∃ l, buildSlotsList lookup kvs = .ok l := by
  intro kvs
  induction kvs with
  | nil => exact fun _ => ⟨[], rfl⟩
  | cons kv rest ih =>
    intro h
    obtain ⟨sp, hsp⟩ := @slotOne_ok lookup _
      (h kv (List.mem_cons_self _ _))
    obtain ⟨out, hout⟩ := ih (fun x hx => h x (List.mem_cons_of_mem _ hx))
    refine ⟨sp :: out, ?_⟩
    unfold buildSlotsList
    simp only [bind]
    rw [hsp]
    simp only [Except.bind]
    rw [hout]
    rfl

theorem stateOne_ok {lookup : List (String × String)} {kv : IterKey × PyVal}
    {seq : Nat} (h : stateEntryOk kv.2 = true) :
    ∃ sp, stateOne lookup kv seq = .ok sp := by
  obtain ⟨key, value⟩ := kv
  unfold stateOne
  simp only [bind]
  cases value with
  | vdict m =>
    dsimp only
    simp only [stateEntryOk, entryNameOk] at h
    simp only [Bool.and_eq_true] at h
    obtain ⟨hname, har⟩ := h
    obtain ⟨armv, harm⟩ := @mapRoleRefs_ok lookup _ har
    by_cases ht : truthy (dgetD m "name" vnone) = true
    · rw [if_pos ht]
      rw [ht] at hname
      simp only [Bool.not_true, Bool.false_or] at hname
      cases hn : dgetD m "name" vnone with
      | vstr s =>
        dsimp only [asStr]
        simp only [Except.bind]
        rw [payloadChain_get _ _ _ _ _ (by decide) (by decide) (by decide),
          payloadChain_get _ _ _ _ _ (by decide) (by decide) (by decide), harm]
        exact ⟨_, rfl⟩
      | vnone => rw [hn] at hname; simp [isStrV] at hname
      | vbool b => rw [hn] at hname; simp [isStrV] at hname
      | vint n => rw [hn] at hname; simp [isStrV] at hname
      | vlist xs => rw [hn] at hname; simp [isStrV] at hname
      | vdict mm => rw [hn] at hname; simp [isStrV] at hname
    · rw [if_neg ht]
      dsimp only [asStr]
      simp only [Except.bind]
      rw [payloadChain_get _ _ _ _ _ (by decide) (by decide) (by decide),
        payloadChain_get _ _ _ _ _ (by decide) (by decide) (by decide), harm]
      exact ⟨_, rfl⟩
  | vnone => exact ⟨_, rfl⟩
  | vbool b => exact ⟨_, rfl⟩
  | vint n => exact ⟨_, rfl⟩
  | vstr s => exact ⟨_, rfl⟩
  | vlist xs => exact ⟨_, rfl⟩

theorem buildStatesList_ok {lookup : List (String × String)} :
    ∀ (kvs : List (IterKey × PyVal)) (seq : Nat),
      (∀ kv ∈ kvs, stateEntryOk kv.2 = true) →
      ∃ l, buildStatesList lookup seq kvs = .ok l := by
  intro kvs
  induction kvs with
  | nil => exact fun _ _ => ⟨[], rfl⟩
  | cons kv rest ih =>
    intro seq h
    obtain ⟨sp, hsp⟩ := @stateOne_ok lookup _ seq
      (h kv (List.mem_cons_self _ _))
    obtain ⟨out, hout⟩ := ih (seq + 1) (fun x hx => h x (List.mem_cons_of_mem _ hx))
    refine ⟨sp :: out, ?_⟩
    unfold buildStatesList
    simp only [bind]
    rw [hsp]
    simp only [Except.bind]
    rw [hout]
    rfl

theorem roleOne_name {lookup : List (String × String)} {kv : IterKey × PyVal}
    {res : List (String × String) × PyDict} (h : roleOne lookup kv = .ok res) :
    ∃ s, dget res.2 "name" = some (vstr s) := by
  unfold roleOne at h
  simp only [bind] at h
  obtain ⟨dn, hdn, h⟩ := bind_ok h
  simp only [pure, Except.pure, Except.ok.injEq] at h
  subst h
  refine ⟨slugify_lower dn "role", ?_⟩
  dsimp only
  rw [dget_dsetdefault_ne _ _ _ _ (by decide),
    dget_dsetdefault_ne _ _ _ _ (by decide),
    dget_dsetdefault_ne _ _ _ _ (by decide),
    dget_dsetdefault_ne _ _ _ _ (by decide), dget_dset_self]

theorem buildRolesList_names :
    ∀ (kvs : List (IterKey × PyVal)) (lookup : List (String × String))
      (res : List (String × String) × List PyDict),
      buildRolesList lookup kvs = .ok res →
      ∀ rd ∈ res.2, ∃ s, dget rd "name" = some (vstr s) := by
  intro kvs
  induction kvs with
  | nil =>
    intro lookup res h rd hrd
    simp only [buildRolesList, Except.ok.injEq] at h
    rw [← h] at hrd
    simp at hrd
  | cons kv rest ih =>
    intro lookup res h rd hrd
    unfold buildRolesList at h
    simp only [bind] at h
    obtain ⟨⟨lk1, rp⟩, h1, h⟩ := bind_ok h
    obtain ⟨⟨lkF, out⟩, h2, h⟩ := bind_ok h
    simp only [pure, Except.pure, Except.ok.injEq] at h
    rw [← h] at hrd
    simp only [List.mem_cons] at hrd
    rcases hrd with hrd | hrd
    · rw [hrd]
      exact @roleOne_name _ _ (lk1, rp) h1
    · exact ih lk1 (lkF, out) h2 rd hrd

theorem buildRoles_names {roles : PyVal}
    {res : List (String × String) × List PyDict}
    (h : buildRoles roles = .ok res) :
    ∀ rd ∈ res.2, ∃ s, dget rd "name" = some (vstr s) := by
  unfold buildRoles at h
  simp only [bind] at h
  obtain ⟨⟨lk1, out⟩, h1, h⟩ := bind_ok h
  dsimp only at h
  by_cases hemp : out.isEmpty = true
  · rw [if_pos hemp] at h
    simp only [pure, Except.pure, Except.ok.injEq] at h
    rw [← h]
    intro rd hrd
    simp only [defaultRoles, List.mem_cons] at hrd
    rcases hrd with hrd | hrd | hrd
    · exact ⟨"requester", by rw [hrd]; rfl⟩
    · exact ⟨"provider", by rw [hrd]; rfl⟩
    · simp at hrd
  · rw [if_neg hemp] at h
    simp only [pure, Except.pure, Except.ok.injEq] at h
    rw [← h]
    exact buildRolesList_names _ _ _ h1

theorem buildRoles_snd_ne_nil {roles : PyVal}
    {res : List (String × String) × List PyDict}
    (h : buildRoles roles = .ok res) : res.2 ≠ [] := by
  obtain ⟨a, b⟩ := res
  exact buildRoles_ne_nil h

theorem roleNameOf_head_ok {nroles : List PyDict} (hne : nroles ≠ [])
    (hnames : ∀ rd ∈ nroles, ∃ s, dget rd "name" = some (vstr s)) :
    ∃ v, roleNameOf nroles.head? = .ok v := by
  cases nroles with
  | nil => exact absurd rfl hne
  | cons a rest =>
    obtain ⟨s, hs⟩ := hnames a (List.mem_cons_self _ _)
    refine ⟨vstr s, ?_⟩
    unfold roleNameOf
    simp only [List.head?_cons]
    rw [hs]

theorem roleNameOf_last_ok {nroles : List PyDict} (hne : nroles ≠ [])
    (hnames : ∀ rd ∈ nroles, ∃ s, dget rd "name" = some (vstr s)) :
    ∃ v, roleNameOf nroles.getLast? = .ok v := by
  obtain ⟨s, hs⟩ := hnames (nroles.getLast hne) (List.getLast_mem hne)
  refine ⟨vstr s, ?_⟩
  unfold roleNameOf
  rw [List.getLast?_eq_getLast _ hne]
  dsimp only
  rw [hs]

theorem buildStates_ok {lookup : List (String × String)} {nroles : List PyDict}
    {states : PyVal}
    (h : ∀ kv ∈ iterKV states, stateEntryOk kv.2 = true)
    (hne : nroles ≠ [])
    (hnames : ∀ rd ∈ nroles, ∃ s, dget rd "name" = some (vstr s)) :
    ∃ l, buildStates lookup nroles states = .ok l := by
  obtain ⟨out, hout⟩ := @buildStatesList_ok lookup (iterKV states) 0 h
  by_cases hemp : out.isEmpty = true
  · obtain ⟨r0, hr0⟩ := roleNameOf_head_ok hne hnames
    obtain ⟨rl, hrl⟩ := roleNameOf_last_ok hne hnames
    refine ⟨skeletonStates r0 rl, ?_⟩
    unfold buildStates
    simp only [bind]
    rw [hout]
    simp only [Except.bind]
    rw [if_pos hemp, hr0]
    simp only [Except.bind]
    rw [hrl]
    rfl
  · refine ⟨out, ?_⟩
    unfold buildStates
    simp only [bind]
    rw [hout]
    simp only [Except.bind]
    rw [if_neg hemp]
    rfl

/-- Core of the amended C2: on well-formed input the normalizer is total. -/
theorem normalize_total {d : PyDict} (h : normalizeWF d = true) :
    (normalize_compiled_template d).isOk = true := by
  unfold normalizeWF at h
  simp only [Bool.and_eq_true] at h
  obtain ⟨⟨⟨h1, h2⟩, h3⟩, h4⟩ := h
  unfold normalize_compiled_template
  simp only [bind]
  obtain ⟨ps, hps⟩ := buildSchema_ok h1
  rw [hps]
  simp only [Except.bind]
  rw [dgetD_dset_ne _ _ _ _ _ (by decide)]
  obtain ⟨rres, hR⟩ := buildRoles_ok h2
  rw [hR]
  simp only [Except.bind]
  rw [dgetD_dset_ne _ _ _ _ _ (by decide), dgetD_dset_ne _ _ _ _ _ (by decide)]
  obtain ⟨nslots, hNS⟩ := @buildSlotsList_ok rres.1 _
    (fun kv hkv => (List.all_eq_true.mp h3) kv hkv)
  rw [hNS]
  simp only [Except.bind]
  rw [dgetD_dset_ne _ _ _ _ _ (by decide), dgetD_dset_ne _ _ _ _ _ (by decide),
    dgetD_dset_ne _ _ _ _ _ (by decide)]
  obtain ⟨nst, hST⟩ := @buildStates_ok rres.1 rres.2 _
    (fun kv hkv => (List.all_eq_true.mp h4) kv hkv)
    (buildRoles_snd_ne_nil hR) (buildRoles_names hR)
  rw [hST]
  rfl

/-- C1: for every dict input (including inputs missing roles, states, slots,
or the pattern entirely), whenever `normalize_compiled_template` returns an
object, that object has a `schemaJson` keyed by exactly the five phases
`express, explore, commit, evidence, confirm`, a non-empty `roles` list, a
non-empty `states` list whose `sequence` fields are exactly `0..N-1` in list
order, and a `slots` field that is either a non-empty list or `None`. -/
theorem C1_normalize_output_shape (d r : PyDict)
    (h : normalize_compiled_template d = .ok r) : canonicalShape r = true :=
  normalize_shape_core h

/-- Witness for C1 at the concrete input `{}`. -/
theorem C1_witness :
    normalize_compiled_template [] = .ok normalizeEmptyResult ∧
    canonicalShape normalizeEmptyResult = true := by
  refine ⟨by rfl, C1_normalize_output_shape [] normalizeEmptyResult (by rfl)⟩

/-- C2 counterexample: on the dict `{"schemaJson": {"express": 5}}` the Python
function evaluates `phase_source.get('enabled', True)` with `phase_source = 5`
and raises `AttributeError`; the claim that `normalize_compiled_template`
never raises on arbitrarily wrongly-typed fields is therefore false. -/
theorem C2_counterexample :
    (normalize_compiled_template
      [("schemaJson", vdict [("express", vint 5)])]).isOk = false := by decide

/-- C2 (amended): `normalize_compiled_template` returns a result and never
raises provided the wrongly-typed spots its code dereferences are excluded:
every present phase entry under `schemaJson`/`coordinationPattern` is a dict,
every truthy `name` field of a role/slot/state entry is a string, and every
`visibility`/`editable`/`allowedRoles`/`participants` collection iterates to
strings.  (Unrestricted, the claim is false: see the C2 counterexample.) -/
theorem C2_normalize_total_amended (d : PyDict) (h : normalizeWF d = true) :
    (normalize_compiled_template d).isOk = true := normalize_total h

/-- Witness for the amended C2 at a concrete well-formed input. -/
theorem C2_witness :
    normalizeWF c2wfInput = true ∧
    (normalize_compiled_template c2wfInput).isOk = true :=
  ⟨by decide, C2_normalize_total_amended c2wfInput (by decide)⟩

/-- C8: slug generation is deterministic — the same string always yields the
same slug — and `slugify_lower "Primary Requester!"` is `"primary_requester"`. -/
theorem C8_slug_deterministic_and_value :
    (∀ s fb : String, slugify_lower s fb = slugify_lower s fb) ∧
    slugify_lower "Primary Requester!" = "primary_requester" :=
  ⟨fun _ _ => rfl, by decide⟩

/-- C9 counterexample: with input `"!!!"` and fallback `"_"` the function
returns the fallback verbatim, which consists of a leading (and trailing)
underscore — so the claim that the result always has no leading or trailing
underscore and only `[a-z0-9_]` characters is false as stated. -/
theorem C9_counterexample :
    slugify_lower "!!!" "_" = "_" ∧
    goodSlugOutput (slugify_lower "!!!" "_") = false := by
  refine ⟨by decide, by decide⟩

/-- C9 (amended): for every input `s` and non-empty fallback, the result is
non-empty; when the lowered input contains at least one character of
`[a-z0-9]` the result consists only of `[a-z0-9_]` with no leading or
trailing underscore; when it contains none, the result is the fallback
argument returned verbatim. -/
theorem C9_slug_output_amended (s fb : String) (hfb : fb ≠ "") :
    slugify_lower s fb ≠ "" ∧
    ((s.toList.map pyLowerChar).any isSlugChar = true →
      goodSlugOutput (slugify_lower s fb) = true) ∧
    ((s.toList.map pyLowerChar).any isSlugChar = false →
      slugify_lower s fb = fb) :=
  ⟨slugify_lower_ne_empty hfb,
   fun h => slugify_lower_good h,
   fun h => slugify_lower_fallback h⟩

/-- Witness for C9 at `s = "Primary Requester!"`, `fb = "item"`. -/
theorem C9_witness :
    ("item" : String) ≠ "" ∧
    (slugify_lower "Primary Requester!" "item" ≠ "" ∧
     (("Primary Requester!".toList.map pyLowerChar).any isSlugChar = true →
       goodSlugOutput (slugify_lower "Primary Requester!" "item") = true) ∧
     (("Primary Requester!".toList.map pyLowerChar).any isSlugChar = false →
       slugify_lower "Primary Requester!" "item" = "item")) :=
  ⟨by decide, C9_slug_output_amended "Primary Requester!" "item" (by decide)⟩

theorem firstStateError_eq (rn sn : List String) :
    ∀ states : List TState,
      firstStateError rn sn states =
        ((states.map (stateViolations rn sn)).flatten).head? := by
  intro states
  induction states with
  | nil => rfl
  | cons s rest ih =>
    unfold firstStateError
    simp only [List.map_cons, List.flatten_cons]
    rw [List.head?_append]
    unfold stateViolations
    rw [List.head?_append]
    cases hf : s.allowedRoles.find? (fun r => ¬ rn.contains r) with
    | some r =>
      have h1 : ((s.allowedRoles.filter (fun r => ¬ rn.contains r)).map
          (unknownRoleMsg s.name)).head? = some (unknownRoleMsg s.name r) := by
        rw [List.head?_map, List.filter_head?, hf]
        rfl
      rw [h1]
      rfl
    | none =>
      have h1 : s.allowedRoles.filter (fun r => ¬ rn.contains r) = [] := by
        rw [List.filter_eq_nil_iff]
        intro x hx
        simpa using List.find?_eq_none.mp hf x hx
      rw [h1]
      simp only [List.map_nil, List.head?_nil, Option.none_or]
      cases hg : s.requiredSlots.find? (fun x => ¬ sn.contains x) with
      | some x =>
        have h2 : ((s.requiredSlots.filter (fun x => ¬ sn.contains x)).map
            (unknownSlotMsg s.name)).head? = some (unknownSlotMsg s.name x) := by
          rw [List.head?_map, List.filter_head?, hg]
          rfl
        rw [h2]
        rfl
      | none =>
        have h2 : s.requiredSlots.filter (fun x => ¬ sn.contains x) = [] := by
          rw [List.filter_eq_nil_iff]
          intro x hx
          simpa using List.find?_eq_none.mp hg x hx
        rw [h2]
        simp only [List.map_nil, List.head?_nil, Option.none_or]
        exact ih

theorem firstSlotError_eq (rn : List String) :
    ∀ slots : List TSlot,
      firstSlotError rn slots =
        ((slots.map (slotViolations rn)).flatten).head? := by
  intro slots
  induction slots with
  | nil => rfl
  | cons sl rest ih =>
    unfold firstSlotError
    simp only [List.map_cons, List.flatten_cons]
    rw [List.head?_append]
    unfold slotViolations
    cases hf : (sl.visibility ++ sl.editable).find? (fun r => ¬ rn.contains r) with
    | some r =>
      have h1 : (((sl.visibility ++ sl.editable).filter
          (fun r => ¬ rn.contains r)).map
          (slotUnknownRoleMsg sl.name)).head? = some (slotUnknownRoleMsg sl.name r) := by
        rw [List.head?_map, List.filter_head?, hf]
        rfl
      rw [h1]
      rfl
    | none =>
      have h1 : (sl.visibility ++ sl.editable).filter
          (fun r => ¬ rn.contains r) = [] := by
        rw [List.filter_eq_nil_iff]
        intro x hx
        simpa using List.find?_eq_none.mp hf x hx
      rw [h1]
      simp only [List.map_nil, List.head?_nil, Option.none_or]
      exact ih

theorem validate_eq_allViolations_head (t : CTemplate) :
    validate_template_consistency t = (allViolations t).head? := by
  unfold validate_template_consistency allViolations
  rw [List.head?_append, List.head?_append]
  rw [← firstStateError_eq, ← firstSlotError_eq]
  cases h1 : firstStateError (roleNamesOf t) (slotNamesOf t) t.states with
  | some e => rfl
  | none =>
    simp only [Option.none_or]
    cases h2 : firstSlotError (roleNamesOf t) (slotsOf t) with
    | some e => rfl
    | none =>
      simp only [Option.none_or]
      cases h3 : sequenceError t.states with
      | some e => rfl
      | none => rfl

theorem find?_append_none {α : Type} {p : α → Bool} :
    ∀ {l1 : List α} (l2 : List α), (∀ x ∈ l1, p x = false) →
      (l1 ++ l2).find? p = l2.find? p := by
  intro l1
  induction l1 with
  | nil => intro l2 _; rfl
  | cons a rest ih =>
    intro l2 h
    have hna : ¬ p a = true := by simp [h a (List.mem_cons_self _ _)]
    rw [List.cons_append, List.find?_cons_of_neg _ hna]
    exact ih l2 (fun x hx => h x (List.mem_cons_of_mem _ hx))

theorem firstStateError_skip (rn sn : List String) :
    ∀ (pre rest : List TState),
      (∀ s' ∈ pre, stateViolations rn sn s' = []) →
      firstStateError rn sn (pre ++ rest) = firstStateError rn sn rest := by
  intro pre
  induction pre with
  | nil => intro rest _; rfl
  | cons q pre' ih =>
    intro rest h
    have hq := h q (List.mem_cons_self _ _)
    unfold stateViolations at hq
    obtain ⟨hq1, hq2⟩ := List.append_eq_nil.mp hq
    have hf1 : q.allowedRoles.find? (fun r => ¬ rn.contains r) = none := by
      rw [List.find?_eq_none]
      intro x hx
      have := (List.filter_eq_nil_iff.mp (List.map_eq_nil_iff.mp hq1)) x hx
      simpa using this
    have hf2 : q.requiredSlots.find? (fun x => ¬ sn.contains x) = none := by
      rw [List.find?_eq_none]
      intro x hx
      have := (List.filter_eq_nil_iff.mp (List.map_eq_nil_iff.mp hq2)) x hx
      simpa using this
    rw [List.cons_append]
    show (match q.allowedRoles.find? (fun r => ¬ rn.contains r) with
      | some r => some (unknownRoleMsg q.name r)
      | none =>
        match q.requiredSlots.find? (fun x => ¬ sn.contains x) with
        | some x => some (unknownSlotMsg q.name x)
        | none => firstStateError rn sn (pre' ++ rest)) =
      firstStateError rn sn rest
    rw [hf1, hf2]
    exact ih rest (fun s' hs' => h s' (List.mem_cons_of_mem _ hs'))

/-- C3 counterexample: `tmplC3` has two cross-referential violations (each of
its two states names an unknown role), yet validation reports only the first:
the reported error list has one element, naming `s_one`/`ghost_one`, and the
violation of `s_two`/`ghost_two` is absent from it. -/
theorem C3_counterexample :
    (allViolations tmplC3).length = 2 ∧
    reportedErrors tmplC3 = [unknownRoleMsg "s_one" "ghost_one"] ∧
    unknownRoleMsg "s_two" "ghost_two" ∈ allViolations tmplC3 ∧
    unknownRoleMsg "s_two" "ghost_two" ∉ reportedErrors tmplC3 := by
  refine ⟨by decide, by decide, by decide, by decide⟩

/-- C3 (amended): `validate_template_consistency` raises at the first
violation, so the error list a caller sees is `take 1` of the list of all
detected violations (in check order), not the full list. -/
theorem C3_first_error_only (t : CTemplate) :
    reportedErrors t = (allViolations t).take 1 := by
  unfold reportedErrors
  rw [validate_eq_allViolations_head]
  cases allViolations t with
  | nil => rfl
  | cons a l => rfl

/-- C4 counterexample: in `tmplC4`, state `s_two` has the dangling
`allowedRoles` entry `ghost`, so the claim's premise holds; validation fails,
but the reported error is the earlier dangling-slot violation of `s_one` and
does not name `s_two` or `ghost`. -/
theorem C4_counterexample :
    hasDanglingAllowedRole tmplC4 = true ∧
    validate_template_consistency tmplC4 =
      some (unknownSlotMsg "s_one" "missing_slot") ∧
    ¬ mentions (unknownSlotMsg "s_one" "missing_slot") "ghost" := by
  refine ⟨by decide, by decide, by decide⟩

/-- C4 (amended): whenever some state's `allowedRoles` names an undeclared
role, validation fails; and when that dangling reference is the first
violation in check order (no earlier state has any violation and no earlier
entry of the state's `allowedRoles` dangles), the reported error names that
state and that role. -/
theorem C4_dangling_role_amended (t : CTemplate) :
    (hasDanglingAllowedRole t = true →
      (validate_template_consistency t).isSome = true) ∧
    (∀ (pre post : List TState) (s : TState) (pra posta : List String)
      (r : String),
      t.states = pre ++ s :: post →
      (∀ s' ∈ pre, stateViolations (roleNamesOf t) (slotNamesOf t) s' = []) →
      s.allowedRoles = pra ++ r :: posta →
      (∀ r' ∈ pra, (roleNamesOf t).contains r' = true) →
      (roleNamesOf t).contains r = false →
      validate_template_consistency t = some (unknownRoleMsg s.name r)) := by
  constructor
  · intro hd
    rw [validate_eq_allViolations_head]
    unfold hasDanglingAllowedRole at hd
    obtain ⟨s, hs, hr⟩ := List.any_eq_true.mp hd
    obtain ⟨r, hrm, hrd⟩ := List.any_eq_true.mp hr
    have hmem : unknownRoleMsg s.name r ∈ allViolations t := by
      unfold allViolations
      apply List.mem_append_left
      apply List.mem_append_left
      rw [List.mem_flatten]
      refine ⟨stateViolations (roleNamesOf t) (slotNamesOf t) s,
        List.mem_map_of_mem _ hs, ?_⟩
      unfold stateViolations
      apply List.mem_append_left
      apply List.mem_map_of_mem
      rw [List.mem_filter]
      exact ⟨hrm, by simpa using hrd⟩
    cases hA : allViolations t with
    | nil => rw [hA] at hmem; simp at hmem
    | cons a l => rfl
  · intro pre post s pra posta r hsplit hpre har hpra hr
    unfold validate_template_consistency
    have hfst : firstStateError (roleNamesOf t) (slotNamesOf t) t.states =
        some (unknownRoleMsg s.name r) := by
      rw [hsplit, firstStateError_skip _ _ _ _ hpre]
      unfold firstStateError
      have hfind : s.allowedRoles.find?
          (fun x => ¬ (roleNamesOf t).contains x) = some r := by
        rw [har, find?_append_none _ (fun x hx => by simpa using hpra x hx)]
        exact List.find?_cons_of_pos _ (by simpa using hr)
      rw [hfind]
    rw [hfst]

/-- Witness for the amended C4 at `tmplC4wit` (one state, one dangling role). -/
theorem C4_witness :
    (validate_template_consistency tmplC4wit).isSome = true ∧
    validate_template_consistency tmplC4wit =
      some (unknownRoleMsg "s_two" "ghost") :=
  ⟨(C4_dangling_role_amended tmplC4wit).1 (by decide),
   (C4_dangling_role_amended tmplC4wit).2 [] [] tmplC4witState [] [] "ghost"
     rfl (by simp) rfl (by simp) (by decide)⟩

/-- C7 counterexample: `validate_transitions` accepts
`{"always": ["a", "b"]}` — a multi-target `always` transition with no
disambiguator passes validation, so the claim that the validator rejects it
is false. -/
theorem C7_counterexample :
    validate_transitions [("always", vlist [vstr "a", vstr "b"])] = none := by
  decide

/-- C7 (amended): `validate_transitions` accepts a transitions dict exactly
when every condition key is one of `always/approved/rejected/timeout/manual`
and every target value is a string or a list — it performs no multi-target
check, so an ambiguous multi-target `always`/`timeout` transition passes
validation and can reach run time. -/
theorem C7_transitions_accepted_amended (trans : List (String × PyVal)) :
    validate_transitions trans = none ↔
      ∀ p ∈ trans, validConditions.contains p.1 = true ∧
        isStrOrList p.2 = true := by
  induction trans with
  | nil => simp [validate_transitions]
  | cons hd rest ih =>
    obtain ⟨c, tgt⟩ := hd
    unfold validate_transitions
    by_cases h1 : validConditions.contains c = true
    · rw [if_neg (by simpa using h1)]
      by_cases h2 : isStrOrList tgt = true
      · rw [if_neg (by simpa using h2)]
        rw [ih]
        constructor
        · intro h p hp
          rcases List.mem_cons.mp hp with hp | hp
          · rw [hp]
            exact ⟨h1, h2⟩
          · exact h p hp
        · intro h p hp
          exact h p (List.mem_cons_of_mem _ hp)
      · rw [if_pos (by simpa using h2)]
        constructor
        · intro h; simp at h
        · intro h
          exact absurd (h (c, tgt) (List.mem_cons_self _ _)).2 (by simpa using h2)
    · rw [if_pos (by simpa using h1)]
      constructor
      · intro h; simp at h
      · intro h
        exact absurd (h (c, tgt) (List.mem_cons_self _ _)).1 (by simpa using h1)

/-- Witness for the amended C7: a single-target `approved` transition is
accepted via the characterization. -/
theorem C7_witness :
    validate_transitions [("approved", vstr "next_state")] = none :=
  (C7_transitions_accepted_amended _).mpr (by decide)

/-- C10: the tags validator is total (a pure function of the tag list) and,
for every input list, returns a duplicate-free list containing exactly the
stripped-and-lowercased tags that match `[a-z0-9-]+` and have length ≥ 2 —
failing tags are silently dropped, never reported. -/
theorem C10_tags_validator (v : List String) :
    (validate_tags v).Nodup ∧
    ∀ t : String, t ∈ validate_tags v ↔
      ((tagMatches t ∧ 2 ≤ t.length) ∧ ∃ tag ∈ v, cleanTag tag = t) := by
  constructor
  · exact List.nodup_dedup _
  · intro t
    unfold validate_tags
    rw [List.mem_dedup, List.mem_filterMap]
    constructor
    · rintro ⟨a, ha, hfa⟩
      dsimp only at hfa
      by_cases hc : tagMatches (cleanTag a) ∧ 2 ≤ (cleanTag a).length
      · rw [if_pos hc] at hfa
        obtain hfa := Option.some.inj hfa
        rw [← hfa]
        exact ⟨hc, a, ha, rfl⟩
      · rw [if_neg hc] at hfa
        exact absurd hfa (by simp)
    · rintro ⟨hcond, a, ha, hct⟩
      refine ⟨a, ha, ?_⟩
      dsimp only
      rw [hct, if_pos hcond]

/-- Witness for C10 at a concrete tag list: `"  Good-Tag "` survives as
`"good-tag"`, `"x"` (too short) is dropped, and the result has no duplicates. -/
theorem C10_witness :
    (validate_tags ["  Good-Tag ", "x", "good-tag"]).Nodup ∧
    ("good-tag" ∈ validate_tags ["  Good-Tag ", "x", "good-tag"] ↔
      ((tagMatches "good-tag" ∧ 2 ≤ ("good-tag" : String).length) ∧
       ∃ tag ∈ (["  Good-Tag ", "x", "good-tag"] : List String),
         cleanTag tag = "good-tag")) :=
  ⟨(C10_tags_validator ["  Good-Tag ", "x", "good-tag"]).1,
   (C10_tags_validator ["  Good-Tag ", "x", "good-tag"]).2 "good-tag"⟩

theorem countP_congr_list {α : Type} {p q : α → Bool} :
    ∀ {l : List α}, (∀ a ∈ l, p a = q a) → l.countP p = l.countP q := by
  intro l
  induction l with
  | nil => exact fun _ => rfl
  | cons a rest ih =>
    intro h
    rw [List.countP_cons, List.countP_cons, h a (List.mem_cons_self _ _),
      ih (fun x hx => h x (List.mem_cons_of_mem _ hx))]

theorem isOpenFor_slotUpdate (r2 runId : String) (nd : PyDict)
    (row : RunStateRow) :
    isOpenFor r2 (if isOpenFor runId row then { row with slotData := nd }
      else row) = isOpenFor r2 row := by
  by_cases h : isOpenFor runId row = true
  · rw [if_pos h]
    rfl
  · rw [if_neg h]

theorem isOpenFor_close (runId : String) (now : Nat) (row : RunStateRow) :
    isOpenFor runId (if isOpenFor runId row then { row with exitedAt := some now }
      else row) = false := by
  by_cases h : isOpenFor runId row = true
  · rw [if_pos h]
    unfold isOpenFor
    simp
  · rw [if_neg h]
    exact Bool.eq_false_iff.mpr h

/-- C5 counterexample: the run `run1` has one open `RunState` whose stored
`slotData` lacks `private_note`.  In the scenario of the claim the template
declares `private_note` with `editable = ["requester"]` and the write is
performed on behalf of `provider` — but `update_slot_data` takes no acting
role and performs no check: the write cannot fail with `AuthorizationError`
(its type has no error outcome) and the stored `slotData` of the open row IS
changed by the write, refuting both parts of the claim. -/
theorem C5_counterexample :
    (update_slot_data c5db "run1" "private_note" (vstr "x")).map
        (fun row => dget row.slotData "private_note") = [some (vstr "x")] ∧
    c5db.map (fun row => dget row.slotData "private_note") = [none] :=
  ⟨rfl, rfl⟩

/-- C5 (amended): `update_slot_data` performs no role-based authorization —
it takes no acting role and cannot fail.  For every run and open RunState
row, the write succeeds unconditionally: the table keeps its length, every
open row of the run afterwards maps the slot to the written value (still
open), and rows not open for the run are unchanged. -/
theorem C5_no_authorization_amended (db : List RunStateRow)
    (runId slotName : String) (value : PyVal) :
    (update_slot_data db runId slotName value).length = db.length ∧
    (∀ row ∈ db, isOpenFor runId row = true →
      ∃ row', row' ∈ update_slot_data db runId slotName value ∧
        row'.id = row.id ∧ row'.exitedAt = none ∧
        dget row'.slotData slotName = some value) ∧
    (∀ row ∈ db, isOpenFor runId row = false →
      row ∈ update_slot_data db runId slotName value) := by
  have key : ∀ r ∈ db,
      (if isOpenFor runId r then
        { r with slotData := dset ((latestOpenSlotData db runId).getD []) slotName value }
      else r) ∈ update_slot_data db runId slotName value :=
    fun r hr => List.mem_map_of_mem _ hr
  refine ⟨?_, ?_, ?_⟩
  · unfold update_slot_data
    exact List.length_map _ _
  · intro row hrow hopen
    have hmem := key row hrow
    rw [if_pos hopen] at hmem
    refine ⟨_, hmem, rfl, ?_, dget_dset_self _ _ _⟩
    unfold isOpenFor at hopen
    simp only [Bool.and_eq_true, beq_iff_eq] at hopen
    exact hopen.2
  · intro row hrow hopen
    have hmem := key row hrow
    rw [if_neg (by simp [hopen])] at hmem
    exact hmem

/-- Witness for the amended C5 at the concrete one-open-row table. -/
theorem C5_witness :
    (update_slot_data c5db "run1" "private_note" (vstr "x")).length =
      c5db.length ∧
    (∃ row', row' ∈ update_slot_data c5db "run1" "private_note" (vstr "x") ∧
      row'.id = c5row.id ∧ row'.exitedAt = none ∧
      dget row'.slotData "private_note" = some (vstr "x")) :=
  ⟨(C5_no_authorization_amended c5db "run1" "private_note" (vstr "x")).1,
   (C5_no_authorization_amended c5db "run1" "private_note" (vstr "x")).2.1
     c5row (List.mem_singleton_self c5row) (by decide)⟩

/-- C6: starting from a table with at most one open `RunState` row for the
run, both operations preserve the invariant: a slot-data update never opens
or closes any row (every row keeps its `id` and `exitedAt`), and a
transition — when the target state exists — closes every open row of the run
and inserts exactly one new open row (so exactly one row is open afterwards,
the fresh one); when the target is missing, nothing changes. -/
theorem C6_single_open_invariant (db : List RunStateRow)
    (states : List TemplateStateRow) (run : CoordinationRunRow)
    (runId slotName nextStateName newId : String) (value : PyVal) (now : Nat)
    (hOpen : countOpen db runId ≤ 1) :
    countOpen (update_slot_data db runId slotName value) runId ≤ 1 ∧
    ((update_slot_data db runId slotName value).map
        (fun row => (row.id, row.exitedAt)) =
      db.map (fun row => (row.id, row.exitedAt))) ∧
    countOpen
      (transition_to_next_state states run runId nextStateName newId now db).1
      runId ≤ 1 ∧
    (∀ ns, states.find? (fun st =>
        st.templateId == run.templateId && st.name == nextStateName) = some ns →
      countOpen
        (transition_to_next_state states run runId nextStateName newId now db).1
        runId = 1 ∧
      ∀ row ∈ (transition_to_next_state states run runId nextStateName newId
          now db).1, isOpenFor runId row = true → row.id = newId) := by
  have hupd : countOpen (update_slot_data db runId slotName value) runId =
      countOpen db runId := by
    unfold update_slot_data countOpen
    rw [List.countP_map]
    exact countP_congr_list (fun row _ => isOpenFor_slotUpdate runId runId _ row)
  refine ⟨by rw [hupd]; exact hOpen, ?_, ?_, ?_⟩
  · unfold update_slot_data
    rw [List.map_map]
    apply List.map_eq_map_iff.mpr
    intro row hrow
    by_cases h : isOpenFor runId row = true
    · simp only [Function.comp_apply, if_pos h]
    · simp only [Function.comp_apply, if_neg h]
  · cases hfind : states.find? (fun st =>
        st.templateId == run.templateId && st.name == nextStateName) with
    | none =>
      unfold transition_to_next_state
      rw [hfind]
      exact hOpen
    | some ns =>
      unfold transition_to_next_state
      rw [hfind]
      dsimp only
      unfold countOpen
      rw [List.countP_append, List.countP_map]
      have hclosed : db.countP (isOpenFor runId ∘ fun row =>
          if isOpenFor runId row then { row with exitedAt := some now }
          else row) = 0 := by
        rw [List.countP_eq_zero]
        intro row _
        simp [Function.comp_apply, isOpenFor_close runId now row]
      rw [hclosed]
      simp [isOpenFor]
  · intro ns hfind
    unfold transition_to_next_state
    rw [hfind]
    dsimp only
    constructor
    · unfold countOpen
      rw [List.countP_append, List.countP_map]
      have hclosed : db.countP (isOpenFor runId ∘ fun row =>
          if isOpenFor runId row then { row with exitedAt := some now }
          else row) = 0 := by
        rw [List.countP_eq_zero]
        intro row _
        simp [Function.comp_apply, isOpenFor_close runId now row]
      rw [hclosed]
      simp [isOpenFor]
    · intro row hrow hropen
      rcases List.mem_append.mp hrow with hrow | hrow
      · obtain ⟨r0, _, hr0⟩ := List.mem_map.mp hrow
        rw [← hr0] at hropen
        rw [isOpenFor_close runId now r0] at hropen
        exact absurd hropen (by simp)
      · rw [List.mem_singleton.mp hrow]

/-- Witness for C6 at a concrete one-open-row table, an existing target
state, a slot write and a transition. -/
theorem C6_witness :
    countOpen c5db "run1" ≤ 1 ∧
    (countOpen (update_slot_data c5db "run1" "mood_a" (vstr "Joyful")) "run1" ≤ 1 ∧
     ((update_slot_data c5db "run1" "mood_a" (vstr "Joyful")).map
        (fun row => (row.id, row.exitedAt)) =
       c5db.map (fun row => (row.id, row.exitedAt))) ∧
     countOpen
       (transition_to_next_state c6states c6run "run1" "share_a" "rs2" 5 c5db).1
       "run1" ≤ 1 ∧
     (∀ ns, c6states.find? (fun st =>
         st.templateId == c6run.templateId && st.name == "share_a") = some ns →
       countOpen
         (transition_to_next_state c6states c6run "run1" "share_a" "rs2" 5 c5db).1
         "run1" = 1 ∧
       ∀ row ∈ (transition_to_next_state c6states c6run "run1" "share_a" "rs2"
           5 c5db).1, isOpenFor "run1" row = true → row.id = "rs2")) :=
  ⟨by decide,
   C6_single_open_invariant c5db c6states c6run "run1" "mood_a" "share_a" "rs2"
     (vstr "Joyful") 5 (by decide)⟩

end RouhSpaces

